import Mathlib

/-!
# SFMLTeach level loader: embedding of `level.h` / `level.cpp`

The development embeds `Level::LoadFromFile`, `Level::GetObject`, `Level::GetObjects` and
`Object::GetPropertyString` as pure functions and proves properties of them.

Modelling conventions.

* `int` values are `Int`; signed overflow is undefined in C++ and is outside the model.  The two
  conversions the code relies on are explicit: `int -> unsigned` in the division by the tile size
  (`toUnsigned`) and `int -> Uint8` in the colour constructor (`toUint8`).
* `float` values read from an attribute are exact rationals; `float -> int` is truncation.
* The XML tree is what tinyxml2 exposes: elements with a name, attributes and child elements.
  An attribute carries its text together with what the typed readers make of that text.
* The file system is a pair of lookup functions (XML documents and images by path).
* Undefined behaviour (null dereference, out-of-range `operator[]`, division by zero) is an explicit
  outcome `undefined`, distinct from both `return true` and `return false`.
* A member function returns its result together with the state of the object after the call.
-/

namespace SFMLTeach

/-! ## SFML value types -/

/-- The type `sf::Rect<int>`; the default constructor gives the zero rectangle. -/
structure Rect where
  left : Int := 0
  top : Int := 0
  width : Int := 0
  height : Int := 0
deriving DecidableEq, Repr

/-- Conversion `int -> Uint8`. -/
def toUint8 (i : Int) : Int := i % 256

/-- The type `sf::Color`: four 8-bit channels. -/
structure Color where
  r : Int
  g : Int
  b : Int
  a : Int
deriving DecidableEq, Repr

/-- The constructor `sf::Color(Uint8, Uint8, Uint8, Uint8)` applied to `int` arguments. -/
def Color.rgba (r g b a : Int) : Color :=
  { r := toUint8 r, g := toUint8 g, b := toUint8 b, a := toUint8 a }

/-- The size of an `sf::Image` (only the size is modelled). -/
structure Image where
  x : Nat
  y : Nat
deriving DecidableEq, Repr

/-- The size of an `sf::Texture`; a default-constructed texture is empty. -/
structure Texture where
  x : Nat := 0
  y : Nat := 0
deriving DecidableEq, Repr

/-- The call `Texture::loadFromImage`: the texture takes the size of the image. -/
def Texture.loadFromImage (_t : Texture) (img : Image) : Texture := { x := img.x, y := img.y }

/-- The type `sf::Sprite`: whether a texture is bound (every sprite of a level binds the level's
`tilesetImage`), the texture rectangle, the position and the colour. -/
structure Sprite where
  hasTexture : Bool := false
  textureRect : Rect := {}
  position : Int × Int := (0, 0)
  color : Color := { r := 255, g := 255, b := 255, a := 255 }
deriving DecidableEq, Repr

/-- The call `Sprite::setTextureRect`. -/
def Sprite.setTextureRect (s : Sprite) (r : Rect) : Sprite := { s with textureRect := r }

/-- The call `Sprite::setTexture(texture)` with `resetRect = false`: a sprite that had neither a
texture nor a rectangle takes the whole texture as its rectangle. -/
def Sprite.setTexture (s : Sprite) (t : Texture) : Sprite :=
  if s.hasTexture = false ∧ s.textureRect = {} then
    { (s.setTextureRect { left := 0, top := 0, width := t.x, height := t.y }) with
      hasTexture := true }
  else { s with hasTexture := true }

/-- The call `Sprite::setPosition`. -/
def Sprite.setPosition (s : Sprite) (x y : Int) : Sprite := { s with position := (x, y) }

/-- The call `Sprite::setColor`. -/
def Sprite.setColor (s : Sprite) (c : Color) : Sprite := { s with color := c }

/-! ## The map `std::map<std::string, std::string>` -/

/-- A `std::map<std::string, std::string>`: its entries in key order. -/
abbrev StdMap := List (String × String)

/-- Lookup of a key (`std::map::find`). -/
def StdMap.find : StdMap → String → Option String
  | [], _ => none
  | (k1, v1) :: m, k => if k = k1 then some v1 else StdMap.find m k

/-- The order `operator<` of `std::string`, on the characters of two strings:
lexicographic. -/
def stringLess : List Char → List Char → Bool
  | [], [] => false
  | [], _ :: _ => true
  | _ :: _, [] => false
  | a :: as, b :: bs =>
    if a.toNat < b.toNat then true
    else if b.toNat < a.toNat then false
    else stringLess as bs

/-- The statement `m[k] = v`: the entry of `k` is overwritten, or inserted at its place in key
order. -/
def StdMap.assign : StdMap → String → String → StdMap
  | [], k, v => [(k, v)]
  | (k1, v1) :: m, k, v =>
    if k = k1 then (k, v) :: m
    else if stringLess k.data k1.data = true then (k, v) :: (k1, v1) :: m
    else (k1, v1) :: StdMap.assign m k v

/-- The expression `m[k]` read as a value: the stored value, or a fresh empty string that is
inserted for a key not yet present. -/
def StdMap.index (m : StdMap) (k : String) : String × StdMap :=
  match StdMap.find m k with
  | some v => (v, m)
  | none => ("", StdMap.assign m k "")

/-- The keys of a map. -/
def StdMap.keys (m : StdMap) : List String := m.map Prod.fst

/-! ## Data model of `level.h` -/

/-- The struct `Object`. -/
structure Object where
  name : String := ""
  type : String := ""
  rect : Rect := {}
  properties : StdMap := []
  sprite : Sprite := {}
deriving DecidableEq, Repr

/-- The struct `Layer`. -/
structure Layer where
  opacity : Int
  tiles : List Sprite := []
deriving DecidableEq, Repr

/-- The class `Level` (the unused `drawingBounds` is left out). -/
structure Level where
  width : Int
  height : Int
  tileWidth : Int
  tileHeight : Int
  firstTileID : Int
  tilesetImage : Texture := {}
  objects : List Object := []
  layers : List Layer := []
deriving DecidableEq, Repr

/-- The function `Object::GetPropertyString`: `return properties[name];`. -/
def Object.GetPropertyString (o : Object) (name : String) : String × Object :=
  let r := StdMap.index o.properties name
  (r.1, { o with properties := r.2 })

/-! ## The XML tree (tinyxml2) and the file system -/

/-- An attribute: its name, its text, and the values `XMLUtil::ToInt` and `XMLUtil::ToFloat`
read from the text (`none` when the text is not a number). -/
structure XMLAttribute where
  name : String
  value : String
  intValue : Option Int := none
  floatValue : Option ℚ := none
deriving DecidableEq, Repr

/-- An element: name, attributes, child elements in document order. -/
inductive XMLElement where
  | mk (name : String) (attributes : List XMLAttribute) (children : List XMLElement)

/-- The name of an element. -/
def XMLElement.Name : XMLElement → String
  | .mk n _ _ => n

/-- The attributes of an element. -/
def XMLElement.attributes : XMLElement → List XMLAttribute
  | .mk _ a _ => a

/-- The child elements of an element. -/
def XMLElement.children : XMLElement → List XMLElement
  | .mk _ _ c => c

/-- The elements visited by
`for (e = p->FirstChildElement(name); e; e = e->NextSiblingElement(name))`:
the children called `name`, in document order. -/
def XMLElement.childElements (p : XMLElement) (name : String) : List XMLElement :=
  p.children.filter fun c => decide (c.Name = name)

/-- The call `FirstChildElement(name)`; `none` is the null pointer. -/
def XMLElement.FirstChildElement (p : XMLElement) (name : String) : Option XMLElement :=
  (p.childElements name).head?

/-- The call `FindAttribute(name)`; `none` is the null pointer. -/
def XMLElement.FindAttribute (e : XMLElement) (name : String) : Option XMLAttribute :=
  e.attributes.find? fun a => decide (a.name = name)

/-- The call `Attribute(name)`: the text of the attribute, or null. -/
def XMLElement.Attribute (e : XMLElement) (name : String) : Option String :=
  (e.FindAttribute name).map XMLAttribute.value

/-- The call `IntAttribute(name)`: 0 when the attribute is absent or not a number. -/
def XMLElement.IntAttribute (e : XMLElement) (name : String) : Int :=
  ((e.FindAttribute name).bind XMLAttribute.intValue).getD 0

/-- The call `FloatAttribute(name)`: 0 when the attribute is absent or not a number. -/
def XMLElement.FloatAttribute (e : XMLElement) (name : String) : ℚ :=
  ((e.FindAttribute name).bind XMLAttribute.floatValue).getD 0

/-- A parsed document: its top-level elements. -/
structure XMLDocument where
  children : List XMLElement

/-- The call `XMLDocument::FirstChildElement(name)`. -/
def XMLDocument.FirstChildElement (d : XMLDocument) (name : String) : Option XMLElement :=
  (d.children.filter fun c => decide (c.Name = name)).head?

/-- The files the loader can see: `LoadFile` gives the parsed document of a path (`none` when the
result is not `XML_SUCCESS`), `loadFromFile` the image of a path (`none` when loading fails). -/
structure FileSystem where
  LoadFile : String → Option XMLDocument
  loadFromFile : String → Option Image

/-! ## Control flow -/

/-- How a block of statements ends: it falls through with a state, it executes
`return result;` with a state, or its behaviour is undefined. -/
inductive Flow (σ : Type) where
  | next (s : σ)
  | ret (result : Bool) (s : σ)
  | undefined
deriving DecidableEq, Repr

/-- Conversion `int -> unsigned` (32 bits). -/
def toUnsigned (i : Int) : Nat := (i % 4294967296).toNat

/-- Conversion `float -> int`: truncation towards zero. -/
def truncToInt (q : ℚ) : Int := if 0 ≤ q then ⌊q⌋ else ⌈q⌉

/-- The expression `v[i]` on a `std::vector` with an `int` index: `none` when the index is not
a valid position (the behaviour of `operator[]` is undefined there). -/
def vectorAt (v : List Rect) (i : Int) : Option Rect :=
  if 0 ≤ i then v[i.toNat]? else none

/-! ## `Level::LoadFromFile` -/

/-- The rectangle pushed at column `x` of row `y` (lines 76-81). -/
def tileRect (tileWidth tileHeight : Int) (x y : Int) : Rect :=
  { top := y * tileHeight, height := tileHeight, left := x * tileWidth, width := tileWidth }

/-- The inner loop `for (int x = 0; x < columns; x++)` of the rectangle table, run on the table
built so far. -/
def subRectsRow (tileWidth tileHeight columns : Int) (subRects : List Rect) (y : Nat) : List Rect :=
  (List.range columns.toNat).foldl
    (fun (acc : List Rect) (x : Nat) => acc ++ [tileRect tileWidth tileHeight x y]) subRects

/-- The loops of lines 72-82: the table `subRects`. -/
def createSubRects (tileWidth tileHeight columns rows : Int) : List Rect :=
  (List.range rows.toNat).foldl (subRectsRow tileWidth tileHeight columns) []

/-- The state of the tile loop of one layer: the raster cursor and the tiles placed so far. -/
structure TileLoop where
  x : Int := 0
  y : Int := 0
  tiles : List Sprite := []
deriving DecidableEq, Repr

/-- The cursor update at the end of the tile loop body (lines 133-140). -/
def advanceCursor (width height : Int) (st : TileLoop) : TileLoop :=
  let x := st.x + 1
  if x ≥ width then
    let y := st.y + 1
    if y ≥ height then { st with x := 0, y := 0 } else { st with x := 0, y := y }
  else { st with x := x }

/-- The sprite built for a placed tile (lines 125-129). -/
def tileSprite (lv : Level) (opacity : Int) (rect : Rect) (x y : Int) : Sprite :=
  ((((({} : Sprite).setTexture lv.tilesetImage).setTextureRect rect).setPosition
    (x * lv.tileWidth) (y * lv.tileHeight)).setColor (Color.rgba 255 255 255 opacity))

/-- The GID read for a tile element (lines 116-120). -/
def tileGID (tileElement : XMLElement) : Int :=
  if (tileElement.FindAttribute "gid").isSome then tileElement.IntAttribute "gid" else 0

/-- One pass through the body of the tile loop (lines 116-140); `none` is undefined behaviour
(the read `subRects[subRectToUse]` outside the table). -/
def tileStep (lv : Level) (subRects : List Rect) (opacity : Int) (st : TileLoop)
    (tileElement : XMLElement) : Option TileLoop :=
  let subRectToUse := tileGID tileElement - lv.firstTileID
  if subRectToUse ≥ 0 then
    match vectorAt subRects subRectToUse with
    | none => none
    | some rect =>
      some (advanceCursor lv.width lv.height
        { st with tiles := st.tiles ++ [tileSprite lv opacity rect st.x st.y] })
  else some (advanceCursor lv.width lv.height st)

/-- The tile loop (lines 112-141) from a given state. -/
def tileLoop (lv : Level) (subRects : List Rect) (opacity : Int) :
    TileLoop → List XMLElement → Option TileLoop
  | st, [] => some st
  | st, tileElement :: rest =>
    match tileStep lv subRects opacity st tileElement with
    | none => none
    | some st1 => tileLoop lv subRects opacity st1 rest

/-- The opacity of a layer (lines 91-100). -/
def layerOpacity (layerElement : XMLElement) : Int :=
  if (layerElement.FindAttribute "opacity").isSome then
    truncToInt (255 * layerElement.FloatAttribute "opacity")
  else 255

/-- The body of the layer loop (lines 89-143). -/
def parseLayer (lv : Level) (subRects : List Rect) (layerElement : XMLElement) : Flow Level :=
  let opacity := layerOpacity layerElement
  match layerElement.FirstChildElement "data" with
  | none => .ret false lv
  | some layerDataElement =>
    match tileLoop lv subRects opacity {} (layerDataElement.childElements "tile") with
    | none => .undefined
    | some st => .next { lv with layers := lv.layers ++ [{ opacity := opacity, tiles := st.tiles }] }

/-- The layer loop (lines 85-144) over the `layer` children still to visit. -/
def parseLayers (subRects : List Rect) : Level → List XMLElement → Flow Level
  | lv, [] => .next lv
  | lv, layerElement :: rest =>
    match parseLayer lv subRects layerElement with
    | .next lv1 => parseLayers subRects lv1 rest
    | .ret b lv1 => .ret b lv1
    | .undefined => .undefined

/-- The loop over the `property` children (lines 201-208); `none` is undefined behaviour (a
`std::string` built from the null pointer of a missing `name` or `value`). -/
def parseProperties : StdMap → List XMLElement → Option StdMap
  | m, [] => some m
  | m, prop :: rest =>
    match prop.Attribute "name", prop.Attribute "value" with
    | some propertyName, some propertyValue =>
      parseProperties (StdMap.assign m propertyName propertyValue) rest
    | _, _ => none

/-- The size and the sprite of an object (lines 159-183): `(width, height, sprite)`; `none` is
undefined behaviour (a read of `subRects` outside the table). -/
def objectGeometry (lv : Level) (subRects : List Rect) (objectElement : XMLElement) :
    Option (Int × Int × Sprite) :=
  let x := objectElement.IntAttribute "x"
  let y := objectElement.IntAttribute "y"
  let sprite := (((({} : Sprite).setTexture lv.tilesetImage).setTextureRect
    { left := 0, top := 0, width := 0, height := 0 }).setPosition x y)
  if (objectElement.FindAttribute "width").isSome then
    let width := objectElement.IntAttribute "width"
    let height := objectElement.IntAttribute "height"
    if (objectElement.FindAttribute "gid").isSome then
      match vectorAt subRects (objectElement.IntAttribute "gid" - lv.firstTileID) with
      | none => none
      | some rect => some (width, height, sprite.setTextureRect rect)
    else some (width, height, sprite)
  else if (objectElement.FindAttribute "gid").isSome then
    let gid := objectElement.IntAttribute "gid"
    match vectorAt subRects (gid - lv.firstTileID) with
    | none => none
    | some rect => some (rect.width, rect.height, sprite.setTextureRect rect)
  else some (0, 0, sprite)

/-- The body of the object loop up to `objects.push_back` (lines 156-209): the object built
for an `object` element; `none` is undefined behaviour. -/
def parseObject (lv : Level) (subRects : List Rect) (objectElement : XMLElement) :
    Option Object :=
  let objectType := (objectElement.Attribute "type").getD ""
  let objectName := (objectElement.Attribute "name").getD ""
  let x := objectElement.IntAttribute "x"
  let y := objectElement.IntAttribute "y"
  match objectGeometry lv subRects objectElement with
  | none => none
  | some (width, height, sprite) =>
    let object : Object :=
      { name := objectName, type := objectType, sprite := sprite,
        rect := { top := y, left := x, height := height, width := width } }
    match objectElement.FirstChildElement "properties" with
    | none => some object
    | some properties =>
      match parseProperties object.properties (properties.childElements "property") with
      | none => none
      | some m => some { object with properties := m }

/-- The object loop of one group (lines 152-212). -/
def parseObjectGroup (subRects : List Rect) : Level → List XMLElement → Option Level
  | lv, [] => some lv
  | lv, objectElement :: rest =>
    match parseObject lv subRects objectElement with
    | none => none
    | some object => parseObjectGroup subRects { lv with objects := lv.objects ++ [object] } rest

/-- The loop over the `objectgroup` elements (lines 150-214). -/
def parseObjectGroups (subRects : List Rect) : Level → List XMLElement → Option Level
  | lv, [] => some lv
  | lv, objectGroupElement :: rest =>
    match parseObjectGroup subRects lv (objectGroupElement.childElements "object") with
    | none => none
    | some lv1 => parseObjectGroups subRects lv1 rest

/-- The result of a call of `LoadFromFile`: the returned `bool` and the level after the call, or
undefined behaviour. -/
inductive Outcome where
  | returned (result : Bool) (level : Level)
  | undefined
deriving DecidableEq, Repr

/-- The value `int columns = tilesetImage.getSize().x / tileWidth;` (line 68): an unsigned
division, defined when the divisor is not zero. -/
def tilesetColumns (lv : Level) : Int :=
  ((lv.tilesetImage.x / toUnsigned lv.tileWidth : Nat) : Int)

/-- The value `int rows = tilesetImage.getSize().y / tileHeight;` (line 69). -/
def tilesetRows (lv : Level) : Int :=
  ((lv.tilesetImage.y / toUnsigned lv.tileHeight : Nat) : Int)

/-- The table `subRects` of a level whose map attributes and atlas are loaded (lines 67-82). -/
def levelSubRects (lv : Level) : List Rect :=
  createSubRects lv.tileWidth lv.tileHeight (tilesetColumns lv) (tilesetRows lv)

/-- The part of `LoadFromFile` after the atlas is loaded (lines 67-221); a division by a zero
tile size is undefined behaviour. -/
def buildLevel (lv : Level) (map : XMLElement) : Outcome :=
  if toUnsigned lv.tileWidth = 0 ∨ toUnsigned lv.tileHeight = 0 then .undefined
  else
    let subRects := levelSubRects lv
    match parseLayers subRects lv (map.childElements "layer") with
    | .undefined => .undefined
    | .ret b lv1 => .returned b lv1
    | .next lv1 =>
      match parseObjectGroups subRects lv1 (map.childElements "objectgroup") with
      | none => .undefined
      | some lv2 => .returned true lv2

/-- The function `Level::LoadFromFile` (lines 22-222), called on the level `lv`. -/
def LoadFromFile (fs : FileSystem) (lv : Level) (filename : String) : Outcome :=
  match fs.LoadFile filename with
  | none => .returned false lv
  | some levelFile =>
    match levelFile.FirstChildElement "map" with
    | none => .returned false lv
    | some map =>
      let lv1 : Level :=
        { lv with
          width := map.IntAttribute "width", height := map.IntAttribute "height",
          tileWidth := map.IntAttribute "tilewidth", tileHeight := map.IntAttribute "tileheight" }
      match map.FirstChildElement "tileset" with
      | none => .undefined
      | some tilesetElement =>
        let lv2 : Level := { lv1 with firstTileID := tilesetElement.IntAttribute "firstgid" }
        match tilesetElement.FirstChildElement "image" with
        | none => .undefined
        | some image =>
          match image.Attribute "source" with
          | none => .undefined
          | some imagepath =>
            match fs.loadFromFile imagepath with
            | none => .returned false lv2
            | some img =>
              buildLevel { lv2 with tilesetImage := lv2.tilesetImage.loadFromImage img } map

/-- The level at line 66, once the map attributes, `firstTileID` and the atlas are stored. -/
def loadedLevel (lv : Level) (map tilesetElement : XMLElement) (img : Image) : Level :=
  { lv with
    width := map.IntAttribute "width", height := map.IntAttribute "height",
    tileWidth := map.IntAttribute "tilewidth", tileHeight := map.IntAttribute "tileheight",
    firstTileID := tilesetElement.IntAttribute "firstgid",
    tilesetImage := lv.tilesetImage.loadFromImage img }

/-! ## Query helpers -/

/-- The loop of `Level::GetObject` (lines 226-229) over the objects still to visit. -/
def findObject : List Object → String → Object
  | [], _ => {}
  | object :: rest, name => if object.name = name then object else findObject rest name

/-- The function `Level::GetObject`. -/
def GetObject (lv : Level) (name : String) : Object × Level :=
  (findObject lv.objects name, lv)

/-- The function `Level::GetObjects`: the loop pushes every object called `name`. -/
def GetObjects (lv : Level) (name : String) : List Object × Level :=
  (lv.objects.foldl (fun vec object => if object.name = name then vec ++ [object] else vec) [],
    lv)

/-! ## Example inputs -/

/-- An attribute whose text reads as the integer `v`. -/
def intAttr (name text : String) (v : Int) : XMLAttribute :=
  { name := name, value := text, intValue := some v, floatValue := some (v : ℚ) }

/-- An attribute whose text is not a number. -/
def textAttr (name text : String) : XMLAttribute :=
  { name := name, value := text }

/-- The map attributes of the examples: 2 x 1 cells of 16 x 16 pixels. -/
def exampleMapAttributes : List XMLAttribute :=
  [intAttr "width" "2" 2, intAttr "height" "1" 1,
   intAttr "tilewidth" "16" 16, intAttr "tileheight" "16" 16]

/-- The tileset of the examples: first GID 1, atlas `tiles.png`. -/
def exampleTileset : XMLElement :=
  .mk "tileset" [intAttr "firstgid" "1" 1] [.mk "image" [textAttr "source" "tiles.png"] []]

/-- A `tile` element with a `gid` attribute. -/
def tileWithGid (text : String) (gid : Int) : XMLElement :=
  .mk "tile" [intAttr "gid" text gid] []

/-- The map of the end-to-end example: one layer with the tiles `gid=1, gid=2`. -/
def exampleMap : XMLElement :=
  .mk "map" exampleMapAttributes
    [exampleTileset, .mk "layer" [] [.mk "data" [] [tileWithGid "1" 1, tileWithGid "2" 2]]]

/-- A file system with the map `level.tmx` (root element `map`) and a 32 x 16 atlas
`tiles.png`. -/
def exampleFiles (map : XMLElement) : FileSystem where
  LoadFile := fun path => if path = "level.tmx" then some { children := [map] } else none
  loadFromFile := fun path => if path = "tiles.png" then some { x := 32, y := 16 } else none

/-- The file system of the examples with an atlas that does not load. -/
def exampleFilesNoAtlas (map : XMLElement) : FileSystem where
  LoadFile := fun path => if path = "level.tmx" then some { children := [map] } else none
  loadFromFile := fun _ => none

/-- A level before any load. -/
def freshLevel : Level :=
  { width := 0, height := 0, tileWidth := 0, tileHeight := 0, firstTileID := 0 }

/-- The level of the examples once the map attributes and the atlas are loaded. -/
def exampleLevel : Level :=
  { width := 2, height := 1, tileWidth := 16, tileHeight := 16, firstTileID := 1,
    tilesetImage := { x := 32, y := 16 } }

/-- The example level with `firstTileID = 0` (a tileset without `firstgid` attribute). -/
def exampleLevelFirst0 : Level := { exampleLevel with firstTileID := 0 }

/-- A `tile` element without `gid` attribute. -/
def tileWithoutGid : XMLElement := .mk "tile" [] []

/-- The object of the end-to-end example: `x=10 y=20`, no `width`, `height` or `gid`. -/
def exampleMarker : XMLElement :=
  .mk "object" [intAttr "x" "10" 10, intAttr "y" "20" 20] []

/-- A `property` element with the given `name` and `value`. -/
def propertyElement (name value : String) : XMLElement :=
  .mk "property" [textAttr "name" name, textAttr "value" value] []

/-- An object with three properties, the name `hp` occurring twice. -/
def exampleObjectWithProperties : XMLElement :=
  .mk "object" [intAttr "x" "10" 10, intAttr "y" "20" 20]
    [.mk "properties" []
      [propertyElement "hp" "3", propertyElement "speed" "2", propertyElement "hp" "7"]]

/-- An `object` element with a name and a position. -/
def namedObject (name : String) (x y : Int) (xText yText : String) : XMLElement :=
  .mk "object" [textAttr "name" name, intAttr "x" xText x, intAttr "y" yText y] []

/-- A map with two layers and two object groups, interleaved: a layer, a group with the objects
`a` and `b`, a second layer, a group with a second object `a`. -/
def exampleMapGroups : XMLElement :=
  .mk "map" exampleMapAttributes
    [exampleTileset,
     .mk "layer" [] [.mk "data" [] [tileWithGid "1" 1, tileWithoutGid]],
     .mk "objectgroup" [] [namedObject "a" 1 2 "1" "2", namedObject "b" 3 4 "3" "4"],
     .mk "layer" [] [.mk "data" [] [tileWithoutGid, tileWithGid "2" 2]],
     .mk "objectgroup" [] [namedObject "a" 5 6 "5" "6"]]

/-- The object built for `namedObject name x y`. -/
def markerObject (name : String) (x y : Int) : Object :=
  { name := name, rect := { left := x, top := y },
    sprite := { hasTexture := true, position := (x, y) } }

/-- The level loaded from `exampleMapGroups`. -/
def exampleLevelGroups : Level :=
  { exampleLevel with
    layers :=
      [{ opacity := 255,
         tiles := [{ hasTexture := true,
                     textureRect := { left := 0, top := 0, width := 16, height := 16 },
                     position := (0, 0) }] },
       { opacity := 255,
         tiles := [{ hasTexture := true,
                     textureRect := { left := 16, top := 0, width := 16, height := 16 },
                     position := (16, 0) }] }],
    objects := [markerObject "a" 1 2, markerObject "b" 3 4, markerObject "a" 5 6] }

/-- The members of a level other than its two lists: the map attributes, `firstTileID` and the
atlas. -/
def Level.mapData (lv : Level) : Int × Int × Int × Int × Int × Texture :=
  (lv.width, lv.height, lv.tileWidth, lv.tileHeight, lv.firstTileID, lv.tilesetImage)

/-- The example map with a well-formed first layer, a second layer without `data` child, and
an object group. -/
def exampleMapSecondLayerBroken : XMLElement :=
  .mk "map" exampleMapAttributes
    [exampleTileset,
     .mk "layer" [] [.mk "data" [] [tileWithGid "1" 1, tileWithGid "2" 2]],
     .mk "layer" [] [],
     .mk "layer" [] [.mk "data" [] [tileWithGid "1" 1]],
     .mk "objectgroup" [] [exampleMarker]]

/-- The layer built from the tiles `gid=1, gid=2` of the examples. -/
def exampleLayer : Layer :=
  { opacity := 255,
    tiles := [{ hasTexture := true,
                textureRect := { left := 0, top := 0, width := 16, height := 16 },
                position := (0, 0) },
              { hasTexture := true,
                textureRect := { left := 16, top := 0, width := 16, height := 16 },
                position := (16, 0) }] }

/-- A `layer` element with `opacity="0.5"` and no tiles. -/
def exampleLayerHalfOpacity : XMLElement :=
  .mk "layer" [{ name := "opacity", value := "0.5", floatValue := some (1 / 2) }]
    [.mk "data" [] []]

/-- The example map without `tileset` child. -/
def exampleMapNoTileset : XMLElement :=
  .mk "map" exampleMapAttributes
    [.mk "layer" [] [.mk "data" [] [tileWithGid "1" 1, tileWithGid "2" 2]]]

/-- The example map whose tileset has no `image` child. -/
def exampleMapNoImage : XMLElement :=
  .mk "map" exampleMapAttributes [.mk "tileset" [intAttr "firstgid" "1" 1] []]

/-- The example map whose tileset image has no `source` attribute. -/
def exampleMapNoSource : XMLElement :=
  .mk "map" exampleMapAttributes
    [.mk "tileset" [intAttr "firstgid" "1" 1] [.mk "image" [] []]]

/-- The example map with `tilewidth="0"`. -/
def exampleMapZeroTileWidth : XMLElement :=
  .mk "map"
    [intAttr "width" "2" 2, intAttr "height" "1" 1,
     intAttr "tilewidth" "0" 0, intAttr "tileheight" "16" 16]
    [exampleTileset, .mk "layer" [] [.mk "data" [] []]]

/-- The example map without `tileheight` attribute. -/
def exampleMapNoTileHeight : XMLElement :=
  .mk "map" [intAttr "width" "2" 2, intAttr "height" "1" 1, intAttr "tilewidth" "16" 16]
    [exampleTileset, .mk "layer" [] [.mk "data" [] []]]

/-! # Theorems -/

/-! ## Lists built by loops -/

theorem foldl_push_eq_map {α β : Type} (f : α → β) (l : List α) (init : List β) :
    l.foldl (fun acc x => acc ++ [f x]) init = init ++ l.map f := by
  induction l generalizing init with
  | nil => simp
  | cons a l ih => simp [ih]

theorem foldl_append_eq_flatMap {α β : Type} (g : α → List β) (l : List α) (init : List β) :
    l.foldl (fun acc y => acc ++ g y) init = init ++ l.flatMap g := by
  induction l generalizing init with
  | nil => simp
  | cons a l ih => simp [ih]

theorem grid_length {β : Type} (f : Nat → Nat → β) (c n : Nat) :
    ((List.range n).flatMap fun y => (List.range c).map fun x => f x y).length = n * c := by
  induction n with
  | zero => simp
  | succ n ih =>
    rw [List.range_succ, List.flatMap_append, List.length_append, ih]
    simp [Nat.succ_mul]

theorem grid_getElem? {β : Type} (f : Nat → Nat → β) (c n i : Nat) (h : i < n * c) :
    ((List.range n).flatMap fun y => (List.range c).map fun x => f x y)[i]?
      = some (f (i % c) (i / c)) := by
  induction n with
  | zero => simp at h
  | succ n ih =>
    rw [List.range_succ, List.flatMap_append]
    by_cases hi : i < n * c
    · rw [List.getElem?_append_left (by rw [grid_length]; exact hi)]
      exact ih hi
    · have hi2 : n * c ≤ i := Nat.le_of_not_lt hi
      rw [List.getElem?_append_right (by rw [grid_length]; exact hi2), grid_length]
      have hlt : i - n * c < c := by
        rw [Nat.succ_mul] at h; omega
      have hdiv : i / c = n := by
        apply Nat.div_eq_of_lt_le
        · rw [Nat.mul_comm] at hi2; linarith
        · rw [Nat.succ_mul] at h; linarith
      have hmod : i % c = i - n * c := by
        have := Nat.div_add_mod i c
        rw [hdiv, Nat.mul_comm] at this
        omega
      simp [hlt, hdiv, hmod]

/-! ## The sub-rectangle table -/

/-- The two nested loops build the rows one after the other, each row left to right. -/
theorem createSubRects_eq (tw th : Int) (c r : Nat) :
    createSubRects tw th c r
      = (List.range r).flatMap fun (y : Nat) =>
          (List.range c).map fun (x : Nat) => tileRect tw th (x : Int) (y : Int) := by
  unfold createSubRects
  have hrow : subRectsRow tw th (c : Int)
      = fun acc (y : Nat) =>
          acc ++ (List.range c).map fun (x : Nat) => tileRect tw th (x : Int) (y : Int) := by
    funext acc y
    unfold subRectsRow
    rw [Int.toNat_natCast]
    exact foldl_push_eq_map (fun (x : Nat) => tileRect tw th (x : Int) (y : Int)) _ acc
  rw [hrow, Int.toNat_natCast, foldl_append_eq_flatMap]
  simp

theorem createSubRects_length (tw th : Int) (c r : Nat) :
    (createSubRects tw th c r).length = r * c := by
  rw [createSubRects_eq]
  exact grid_length (fun x y => tileRect tw th x y) c r

theorem createSubRects_getElem? (tw th : Int) (c r i : Nat) (h : i < r * c) :
    (createSubRects tw th c r)[i]?
      = some (tileRect tw th ((i % c : Nat) : Int) ((i / c : Nat) : Int)) := by
  rw [createSubRects_eq]
  exact grid_getElem? (fun x y => tileRect tw th x y) c r i h

/-- A tile size in 1 .. INT_MAX converts to `unsigned` unchanged. -/
theorem toUnsigned_of_pos (i : Int) (h1 : 1 ≤ i) (h2 : i ≤ 2147483647) :
    ((toUnsigned i : Nat) : Int) = i := by
  unfold toUnsigned
  rw [Int.emod_eq_of_lt (by omega) (by omega)]
  exact Int.toNat_of_nonneg (by omega)

theorem mem_createSubRects (tw th : Int) (c r : Nat) (rect : Rect)
    (h : rect ∈ createSubRects tw th c r) :
    ∃ x y : Nat, x < c ∧ y < r ∧ rect = tileRect tw th x y := by
  rw [createSubRects_eq] at h
  simp only [List.mem_flatMap, List.mem_map, List.mem_range] at h
  obtain ⟨y, hy, x, hx, hxy⟩ := h
  exact ⟨x, y, hx, hy, hxy.symm⟩

/-- C2: for tile sizes of at least 1 (and at most INT_MAX, the range of `int`), the table has
exactly `columns * rows` entries, with `columns = atlasWidth / tileWidth` and
`rows = atlasHeight / tileHeight` by integer division, and every entry lies inside the atlas. -/
theorem subRects_count_and_bounds (lv : Level)
    (hw1 : 1 ≤ lv.tileWidth) (hw2 : lv.tileWidth ≤ 2147483647)
    (hh1 : 1 ≤ lv.tileHeight) (hh2 : lv.tileHeight ≤ 2147483647) :
    tilesetColumns lv = (lv.tilesetImage.x : Int) / lv.tileWidth ∧
    tilesetRows lv = (lv.tilesetImage.y : Int) / lv.tileHeight ∧
    ((levelSubRects lv).length : Int) = tilesetColumns lv * tilesetRows lv ∧
    ∀ rect ∈ levelSubRects lv,
      0 ≤ rect.left ∧ 0 ≤ rect.top ∧
      rect.left + rect.width ≤ (lv.tilesetImage.x : Int) ∧
      rect.top + rect.height ≤ (lv.tilesetImage.y : Int) := by
  have ew := toUnsigned_of_pos lv.tileWidth hw1 hw2
  have eh := toUnsigned_of_pos lv.tileHeight hh1 hh2
  refine ⟨?_, ?_, ?_, ?_⟩
  · unfold tilesetColumns
    rw [Int.natCast_div, ew]
  · unfold tilesetRows
    rw [Int.natCast_div, eh]
  · unfold levelSubRects tilesetColumns tilesetRows
    rw [createSubRects_length]
    push_cast
    ring
  · intro rect hrect
    unfold levelSubRects tilesetColumns tilesetRows at hrect
    obtain ⟨x, y, hx, hy, rfl⟩ := mem_createSubRects _ _ _ _ rect hrect
    have hcx : (x + 1) * toUnsigned lv.tileWidth ≤ lv.tilesetImage.x :=
      le_trans (Nat.mul_le_mul_right _ hx) (Nat.div_mul_le_self _ _)
    have hcy : (y + 1) * toUnsigned lv.tileHeight ≤ lv.tilesetImage.y :=
      le_trans (Nat.mul_le_mul_right _ hy) (Nat.div_mul_le_self _ _)
    have hcx1 : (((x + 1) * toUnsigned lv.tileWidth : Nat) : Int) ≤ (lv.tilesetImage.x : Int) :=
      Int.ofNat_le.mpr hcx
    have hcy1 : (((y + 1) * toUnsigned lv.tileHeight : Nat) : Int) ≤ (lv.tilesetImage.y : Int) :=
      Int.ofNat_le.mpr hcy
    push_cast at hcx1 hcy1
    rw [ew] at hcx1
    rw [eh] at hcy1
    simp only [tileRect]
    refine ⟨?_, ?_, ?_, ?_⟩
    · positivity
    · positivity
    · linarith
    · linarith

theorem subRects_count_and_bounds_witness :
    (1 ≤ exampleLevel.tileWidth ∧ exampleLevel.tileWidth ≤ 2147483647 ∧
      1 ≤ exampleLevel.tileHeight ∧ exampleLevel.tileHeight ≤ 2147483647) ∧
    (tilesetColumns exampleLevel = (exampleLevel.tilesetImage.x : Int) / exampleLevel.tileWidth ∧
      tilesetRows exampleLevel = (exampleLevel.tilesetImage.y : Int) / exampleLevel.tileHeight ∧
      ((levelSubRects exampleLevel).length : Int)
        = tilesetColumns exampleLevel * tilesetRows exampleLevel ∧
      ∀ rect ∈ levelSubRects exampleLevel,
        0 ≤ rect.left ∧ 0 ≤ rect.top ∧
        rect.left + rect.width ≤ (exampleLevel.tilesetImage.x : Int) ∧
        rect.top + rect.height ≤ (exampleLevel.tilesetImage.y : Int)) :=
  ⟨by decide,
    subRects_count_and_bounds exampleLevel (by decide) (by decide) (by decide) (by decide)⟩

theorem levelSubRects_getElem? (lv : Level) (i : Nat)
    (h : (i : Int) < tilesetRows lv * tilesetColumns lv) :
    (levelSubRects lv)[i]? =
      some { left := ((i : Int) % tilesetColumns lv) * lv.tileWidth,
             top := ((i : Int) / tilesetColumns lv) * lv.tileHeight,
             width := lv.tileWidth, height := lv.tileHeight } := by
  unfold levelSubRects tilesetColumns tilesetRows at *
  have h1 : i < (lv.tilesetImage.y / toUnsigned lv.tileHeight)
      * (lv.tilesetImage.x / toUnsigned lv.tileWidth) := by
    exact_mod_cast h
  rw [createSubRects_getElem? _ _ _ _ i h1]
  simp [tileRect]

/-- C3: the table is row-major: for every `i < rows * columns`, entry `i` is the rectangle with
`left = (i mod columns) * tileWidth`, `top = (i div columns) * tileHeight` and the size of a
tile. -/
theorem subRects_row_major (lv : Level) (i : Nat)
    (h : (i : Int) < tilesetRows lv * tilesetColumns lv) :
    (levelSubRects lv)[i]? =
      some { left := ((i : Int) % tilesetColumns lv) * lv.tileWidth,
             top := ((i : Int) / tilesetColumns lv) * lv.tileHeight,
             width := lv.tileWidth, height := lv.tileHeight } := by
  unfold levelSubRects tilesetColumns tilesetRows at *
  have h1 : i < (lv.tilesetImage.y / toUnsigned lv.tileHeight)
      * (lv.tilesetImage.x / toUnsigned lv.tileWidth) := by
    exact_mod_cast h
  rw [createSubRects_getElem? _ _ _ _ i h1]
  simp [tileRect]

theorem subRects_row_major_witness :
    ((1 : Nat) : Int) < tilesetRows exampleLevel * tilesetColumns exampleLevel ∧
    (levelSubRects exampleLevel)[1]? =
      some { left := (((1 : Nat) : Int) % tilesetColumns exampleLevel) * exampleLevel.tileWidth,
             top := (((1 : Nat) : Int) / tilesetColumns exampleLevel) * exampleLevel.tileHeight,
             width := exampleLevel.tileWidth, height := exampleLevel.tileHeight } :=
  ⟨by decide, subRects_row_major exampleLevel 1 (by decide)⟩

/-! ## The tile loop -/

theorem tileLoop_append (lv : Level) (subRects : List Rect) (opacity : Int)
    (l1 l2 : List XMLElement) (st : TileLoop) :
    tileLoop lv subRects opacity st (l1 ++ l2)
      = (tileLoop lv subRects opacity st l1).bind fun st1 =>
          tileLoop lv subRects opacity st1 l2 := by
  induction l1 generalizing st with
  | nil => simp [tileLoop]
  | cons e l1 ih =>
    simp only [List.cons_append, tileLoop]
    cases tileStep lv subRects opacity st e with
    | none => simp
    | some st1 => simpa using ih st1

theorem tileLoop_singleton (lv : Level) (subRects : List Rect) (opacity : Int)
    (e : XMLElement) (st : TileLoop) :
    tileLoop lv subRects opacity st [e] = tileStep lv subRects opacity st e := by
  simp only [tileLoop]
  cases tileStep lv subRects opacity st e <;> rfl

/-- The sprite of a placed tile, field by field. -/
theorem tileSprite_eq (lv : Level) (opacity : Int) (rect : Rect) (x y : Int) :
    tileSprite lv opacity rect x y =
      { hasTexture := true, textureRect := rect,
        position := (x * lv.tileWidth, y * lv.tileHeight),
        color := Color.rgba 255 255 255 opacity } := by
  simp [tileSprite, Sprite.setTexture, Sprite.setTextureRect, Sprite.setPosition,
    Sprite.setColor]

/-- The cursor update leaves the placed tiles alone. -/
theorem advanceCursor_tiles (width height : Int) (st : TileLoop) :
    (advanceCursor width height st).tiles = st.tiles := by
  unfold advanceCursor
  simp only
  split_ifs <;> rfl

/-- An 8-bit colour built from channel values in 0 .. 255 has exactly these channels. -/
theorem rgba_white_alpha (a : Int) (h0 : 0 ≤ a) (h1 : a ≤ 255) :
    Color.rgba 255 255 255 a = { r := 255, g := 255, b := 255, a := a } := by
  have ha : a % 256 = a := Int.emod_eq_of_lt h0 (by omega)
  simp [Color.rgba, toUint8, ha]

/-- C1: in the tile loop of any layer, a tile element whose `gid` attribute reads
`firstTileID + k` with `k < rows * columns` appends exactly one placed tile: its texture
rectangle is `subRects[k]`, its position is `(x * tileWidth, y * tileHeight)` for the cursor
`(x, y)` at which the element is read, and its colour is `sf::Color(255, 255, 255, opacity)`,
whose channels are `(255, 255, 255, opacity)` for an opacity in 0 .. 255. -/
theorem placed_tile_for_gid_in_table (lv : Level) (opacity : Int) (st0 st : TileLoop)
    (before : List XMLElement) (tileElement : XMLElement) (k : Nat)
    (hbefore : tileLoop lv (levelSubRects lv) opacity st0 before = some st)
    (hgid : (tileElement.FindAttribute "gid").isSome = true)
    (hval : tileElement.IntAttribute "gid" = lv.firstTileID + k)
    (hk : (k : Int) < tilesetRows lv * tilesetColumns lv) :
    ∃ rect st1,
      (levelSubRects lv)[k]? = some rect ∧
      tileLoop lv (levelSubRects lv) opacity st0 (before ++ [tileElement]) = some st1 ∧
      st1.tiles = st.tiles ++
        [{ hasTexture := true, textureRect := rect,
           position := (st.x * lv.tileWidth, st.y * lv.tileHeight),
           color := Color.rgba 255 255 255 opacity }] ∧
      (0 ≤ opacity → opacity ≤ 255 →
        Color.rgba 255 255 255 opacity = { r := 255, g := 255, b := 255, a := opacity }) := by
  obtain ⟨rect, hrect⟩ : ∃ rect, (levelSubRects lv)[k]? = some rect :=
    ⟨_, levelSubRects_getElem? lv k hk⟩
  refine ⟨rect, advanceCursor lv.width lv.height
    { st with tiles := st.tiles ++ [tileSprite lv opacity rect st.x st.y] }, hrect, ?_, ?_,
    rgba_white_alpha opacity⟩
  · rw [tileLoop_append, hbefore, Option.some_bind, tileLoop_singleton]
    have hsub : tileGID tileElement - lv.firstTileID = (k : Int) := by
      simp [tileGID, hgid, hval]
    simp only [tileStep, hsub]
    have hnn : (k : Int) ≥ 0 := Int.natCast_nonneg k
    simp only [hnn, if_true, vectorAt, ge_iff_le, Int.natCast_nonneg, Int.toNat_natCast, hrect]
  · rw [advanceCursor_tiles, tileSprite_eq]

theorem placed_tile_for_gid_in_table_witness :
    (tileLoop exampleLevel (levelSubRects exampleLevel) 255 {} [tileWithGid "1" 1]
        = some { x := 1, y := 0,
                 tiles := [{ hasTexture := true,
                             textureRect := { left := 0, top := 0, width := 16, height := 16 },
                             position := (0, 0) }] } ∧
      ((tileWithGid "2" 2).FindAttribute "gid").isSome = true ∧
      (tileWithGid "2" 2).IntAttribute "gid" = exampleLevel.firstTileID + ((1 : Nat) : Int) ∧
      ((1 : Nat) : Int) < tilesetRows exampleLevel * tilesetColumns exampleLevel) ∧
    (∃ rect st1,
      (levelSubRects exampleLevel)[1]? = some rect ∧
      tileLoop exampleLevel (levelSubRects exampleLevel) 255 {}
        ([tileWithGid "1" 1] ++ [tileWithGid "2" 2]) = some st1 ∧
      st1.tiles =
        [{ hasTexture := true,
           textureRect := { left := 0, top := 0, width := 16, height := 16 },
           position := (0, 0) }] ++
        [{ hasTexture := true, textureRect := rect,
           position := (1 * exampleLevel.tileWidth, 0 * exampleLevel.tileHeight),
           color := Color.rgba 255 255 255 255 }] ∧
      ((0 : Int) ≤ 255 → (255 : Int) ≤ 255 →
        Color.rgba 255 255 255 255 = { r := 255, g := 255, b := 255, a := 255 })) ∧
    LoadFromFile (exampleFiles exampleMap) freshLevel "level.tmx"
      = .returned true
          { exampleLevel with
            layers :=
              [{ opacity := 255,
                 tiles :=
                   [{ hasTexture := true,
                      textureRect := { left := 0, top := 0, width := 16, height := 16 },
                      position := (0, 0),
                      color := { r := 255, g := 255, b := 255, a := 255 } },
                    { hasTexture := true,
                      textureRect := { left := 16, top := 0, width := 16, height := 16 },
                      position := (16, 0),
                      color := { r := 255, g := 255, b := 255, a := 255 } }] }] } :=
  ⟨by decide,
    placed_tile_for_gid_in_table exampleLevel 255 {}
      { x := 1, y := 0,
        tiles := [{ hasTexture := true,
                    textureRect := { left := 0, top := 0, width := 16, height := 16 },
                    position := (0, 0) }] }
      [tileWithGid "1" 1] (tileWithGid "2" 2) 1 (by decide) (by decide) (by decide) (by decide),
    by decide⟩

/-! ## Reads of the table -/

theorem vectorAt_in_range (v : List Rect) (i : Int) (h0 : 0 ≤ i) (h1 : i < (v.length : Int)) :
    ∃ r, vectorAt v i = some r := by
  unfold vectorAt
  rw [if_pos h0]
  have hlt : i.toNat < v.length := by omega
  exact ⟨v[i.toNat], List.getElem?_eq_getElem hlt⟩

theorem tileLoop_layers (lv : Level) (L : List Layer) (subRects : List Rect) (opacity : Int)
    (l : List XMLElement) (st : TileLoop) :
    tileLoop { lv with layers := L } subRects opacity st l = tileLoop lv subRects opacity st l := by
  induction l generalizing st with
  | nil => rfl
  | cons e l ih =>
    simp only [tileLoop]
    have hstep : tileStep { lv with layers := L } subRects opacity st e
        = tileStep lv subRects opacity st e := rfl
    rw [hstep]
    cases tileStep lv subRects opacity st e with
    | none => rfl
    | some st1 => exact ih st1

/-- The layer that the body of the layer loop builds from a `layer` element. -/
theorem parseLayer_next (lv lv1 : Level) (subRects : List Rect) (e : XMLElement)
    (h : parseLayer lv subRects e = .next lv1) :
    ∃ data st, e.FirstChildElement "data" = some data ∧
      tileLoop lv subRects (layerOpacity e) {} (data.childElements "tile") = some st ∧
      lv1 = { lv with layers := lv.layers ++ [{ opacity := layerOpacity e, tiles := st.tiles }] } := by
  unfold parseLayer at h
  cases hd : e.FirstChildElement "data" with
  | none => simp [hd] at h
  | some data =>
    simp only [hd] at h
    cases ht : tileLoop lv subRects (layerOpacity e) {} (data.childElements "tile") with
    | none => simp [ht] at h
    | some st =>
      simp only [ht] at h
      exact ⟨data, st, rfl, ht, (Flow.next.inj h).symm⟩

theorem parseLayer_ret (lv lv1 : Level) (subRects : List Rect) (e : XMLElement) (b : Bool)
    (h : parseLayer lv subRects e = .ret b lv1) :
    e.FirstChildElement "data" = none ∧ b = false ∧ lv1 = lv := by
  unfold parseLayer at h
  cases hd : e.FirstChildElement "data" with
  | none =>
    simp only [hd] at h
    injection h with hb hl
    exact ⟨rfl, hb.symm, hl.symm⟩
  | some data =>
    simp only [hd] at h
    cases ht : tileLoop lv subRects (layerOpacity e) {} (data.childElements "tile") with
    | none => simp [ht] at h
    | some st => simp [ht] at h

/-- A layer loop that runs to its end appends one layer per `layer` element, in order, and
changes nothing else. -/
theorem parseLayers_next (subRects : List Rect) (es : List XMLElement) (lv lv1 : Level)
    (h : parseLayers subRects lv es = .next lv1) :
    ∃ newLayers, lv1 = { lv with layers := lv.layers ++ newLayers } ∧
      List.Forall₂ (fun e layer => ∃ data st, e.FirstChildElement "data" = some data ∧
        tileLoop lv subRects (layerOpacity e) {} (data.childElements "tile") = some st ∧
        layer = { opacity := layerOpacity e, tiles := st.tiles }) es newLayers := by
  induction es generalizing lv with
  | nil =>
    simp only [parseLayers] at h
    exact ⟨[], by rw [← Flow.next.inj h]; simp, List.Forall₂.nil⟩
  | cons e es ih =>
    simp only [parseLayers] at h
    cases hp : parseLayer lv subRects e with
    | undefined => simp [hp] at h
    | ret b l2 => simp [hp] at h
    | next l2 =>
      simp only [hp] at h
      obtain ⟨data, st, hd, ht, rfl⟩ := parseLayer_next lv l2 subRects e hp
      obtain ⟨rest, hrest, hall⟩ := ih _ h
      refine ⟨{ opacity := layerOpacity e, tiles := st.tiles } :: rest, ?_, ?_⟩
      · rw [hrest]; simp
      · refine List.Forall₂.cons ⟨data, st, hd, ht, rfl⟩ ?_
        refine List.Forall₂.imp ?_ hall
        rintro e1 layer ⟨d1, s1, h1, h2, h3⟩
        exact ⟨d1, s1, h1, (tileLoop_layers lv _ subRects _ _ _).symm.trans h2, h3⟩

/-- The layer loop returns only with `false`, at a `layer` element without a `data` child. -/
theorem parseLayers_ret (subRects : List Rect) (es : List XMLElement) (lv lv1 : Level) (b : Bool)
    (h : parseLayers subRects lv es = .ret b lv1) :
    b = false ∧ ∃ e ∈ es, e.FirstChildElement "data" = none := by
  induction es generalizing lv with
  | nil => simp [parseLayers] at h
  | cons e es ih =>
    simp only [parseLayers] at h
    cases hp : parseLayer lv subRects e with
    | undefined => simp [hp] at h
    | ret b2 l2 =>
      simp only [hp] at h
      obtain ⟨hd, hb, _⟩ := parseLayer_ret lv l2 subRects e b2 hp
      injection h with hb2 _
      exact ⟨by rw [← hb2, hb], e, List.mem_cons_self _ _, hd⟩
    | next l2 =>
      simp only [hp] at h
      obtain ⟨hb, e1, he1, hd1⟩ := ih _ h
      exact ⟨hb, e1, List.mem_cons_of_mem _ he1, hd1⟩

/-! ## The object loops -/

theorem parseObject_objects (lv : Level) (O : List Object) (subRects : List Rect)
    (o : XMLElement) :
    parseObject { lv with objects := O } subRects o = parseObject lv subRects o := rfl

theorem parseObject_layers (lv : Level) (L : List Layer) (subRects : List Rect)
    (o : XMLElement) :
    parseObject { lv with layers := L } subRects o = parseObject lv subRects o := rfl

/-- The object loop of a group appends one object per `object` element, in order. -/
theorem parseObjectGroup_some (subRects : List Rect) (os : List XMLElement) (lv lv1 : Level)
    (h : parseObjectGroup subRects lv os = some lv1) :
    ∃ objs, lv1 = { lv with objects := lv.objects ++ objs } ∧
      List.Forall₂ (fun o obj => parseObject lv subRects o = some obj) os objs := by
  induction os generalizing lv with
  | nil =>
    simp only [parseObjectGroup] at h
    exact ⟨[], by rw [← Option.some.inj h]; simp, List.Forall₂.nil⟩
  | cons o os ih =>
    simp only [parseObjectGroup] at h
    cases hp : parseObject lv subRects o with
    | none => simp [hp] at h
    | some obj =>
      simp only [hp] at h
      obtain ⟨rest, hrest, hall⟩ := ih _ h
      refine ⟨obj :: rest, ?_, ?_⟩
      · rw [hrest]; simp
      · refine List.Forall₂.cons hp ?_
        refine List.Forall₂.imp ?_ hall
        intro o1 obj1 h1
        rw [← h1]
        rfl

/-- The loop over the groups appends the objects of all groups, group after group. -/
theorem parseObjectGroups_some (subRects : List Rect) (gs : List XMLElement) (lv lv1 : Level)
    (h : parseObjectGroups subRects lv gs = some lv1) :
    ∃ objs, lv1 = { lv with objects := lv.objects ++ objs } ∧
      List.Forall₂ (fun o obj => parseObject lv subRects o = some obj)
        (gs.flatMap fun g => g.childElements "object") objs := by
  induction gs generalizing lv with
  | nil =>
    simp only [parseObjectGroups] at h
    exact ⟨[], by rw [← Option.some.inj h]; simp, List.Forall₂.nil⟩
  | cons g gs ih =>
    simp only [parseObjectGroups] at h
    cases hp : parseObjectGroup subRects lv (g.childElements "object") with
    | none => simp [hp] at h
    | some l2 =>
      simp only [hp] at h
      obtain ⟨objs1, rfl, hall1⟩ := parseObjectGroup_some subRects _ lv l2 hp
      obtain ⟨objs2, hrest, hall2⟩ := ih _ h
      refine ⟨objs1 ++ objs2, ?_, ?_⟩
      · rw [hrest]; simp
      · rw [List.flatMap_cons]
        refine List.rel_append hall1 ?_
        refine List.Forall₂.imp ?_ hall2
        intro o1 obj1 h1
        rw [← h1]
        rfl

/-! ## The function as a whole -/

/-- A call that returns `true` has loaded the document, the `map` element, the tileset, its image
and the atlas, and then built the level. -/
theorem LoadFromFile_true (fs : FileSystem) (lv lv1 : Level) (filename : String)
    (h : LoadFromFile fs lv filename = .returned true lv1) :
    ∃ levelFile map tilesetElement img,
      fs.LoadFile filename = some levelFile ∧
      levelFile.FirstChildElement "map" = some map ∧
      map.FirstChildElement "tileset" = some tilesetElement ∧
      buildLevel (loadedLevel lv map tilesetElement img) map = .returned true lv1 := by
  unfold LoadFromFile at h
  cases h1 : fs.LoadFile filename with
  | none => simp [h1] at h
  | some levelFile =>
    simp only [h1] at h
    cases h2 : levelFile.FirstChildElement "map" with
    | none => simp [h2] at h
    | some map =>
      simp only [h2] at h
      cases h3 : map.FirstChildElement "tileset" with
      | none => simp [h3] at h
      | some tilesetElement =>
        simp only [h3] at h
        cases h4 : tilesetElement.FirstChildElement "image" with
        | none => simp [h4] at h
        | some image =>
          simp only [h4] at h
          cases h5 : image.Attribute "source" with
          | none => simp [h5] at h
          | some imagepath =>
            simp only [h5] at h
            cases h6 : fs.loadFromFile imagepath with
            | none => simp [h6] at h
            | some img =>
              simp only [h6] at h
              exact ⟨levelFile, map, tilesetElement, img, rfl, h2, h3, h⟩

/-- A level that is built with `true` ran the layer loop and the object loops to their ends. -/
theorem buildLevel_true (lv lv2 : Level) (map : XMLElement)
    (h : buildLevel lv map = .returned true lv2) :
    ∃ lv1, parseLayers (levelSubRects lv) lv (map.childElements "layer") = .next lv1 ∧
      parseObjectGroups (levelSubRects lv) lv1 (map.childElements "objectgroup") = some lv2 := by
  unfold buildLevel at h
  split_ifs at h
  simp only at h
  cases hp : parseLayers (levelSubRects lv) lv (map.childElements "layer") with
  | undefined => simp [hp] at h
  | ret b l1 =>
    simp only [hp] at h
    have hb := (parseLayers_ret _ _ _ _ _ hp).1
    subst hb
    simp at h
  | next l1 =>
    simp only [hp] at h
    cases ho : parseObjectGroups (levelSubRects lv) l1 (map.childElements "objectgroup") with
    | none => simp [ho] at h
    | some l2 =>
      simp only [ho] at h
      injection h with _ hl
      exact ⟨l1, rfl, by rw [← hl]; exact ho⟩

theorem parseObject_some_geometry (lv : Level) (subRects : List Rect) (o : XMLElement)
    (obj : Object) (h : parseObject lv subRects o = some obj) :
    ∃ g, objectGeometry lv subRects o = some g ∧
      obj.rect = { left := o.IntAttribute "x", top := o.IntAttribute "y",
                   width := g.1, height := g.2.1 } ∧
      obj.sprite = g.2.2 ∧
      obj.name = (o.Attribute "name").getD "" ∧ obj.type = (o.Attribute "type").getD "" := by
  unfold parseObject at h
  cases hg : objectGeometry lv subRects o with
  | none => simp [hg] at h
  | some g =>
    obtain ⟨w, ht, sp⟩ := g
    simp only [hg] at h
    refine ⟨(w, ht, sp), rfl, ?_⟩
    cases hp : o.FirstChildElement "properties" with
    | none =>
      simp only [hp] at h
      rw [← Option.some.inj h]
      exact ⟨rfl, rfl, rfl, rfl⟩
    | some props =>
      simp only [hp] at h
      cases hm : parseProperties [] (props.childElements "property") with
      | none => simp [hm] at h
      | some m =>
        simp only [hm] at h
        rw [← Option.some.inj h]
        exact ⟨rfl, rfl, rfl, rfl⟩

/-- C5, the claim fails: with `firstTileID = 1` a tile `gid=1` (so `gid <= firstTileID`) places a
tile, the first rectangle of the table; and with `firstTileID = 0` a tile without `gid`
attribute places that tile too. -/
theorem gid_equal_first_places_tile :
    (exampleLevel.firstTileID = 1 ∧ (tileWithGid "1" 1).IntAttribute "gid" = 1 ∧
      tileLoop exampleLevel (levelSubRects exampleLevel) 255 {} [tileWithGid "1" 1]
        = some { x := 1, y := 0,
                 tiles := [{ hasTexture := true,
                             textureRect := { left := 0, top := 0, width := 16, height := 16 },
                             position := (0, 0) }] }) ∧
    (exampleLevelFirst0.firstTileID = 0 ∧ (tileWithoutGid.FindAttribute "gid").isSome = false ∧
      tileLoop exampleLevelFirst0 (levelSubRects exampleLevelFirst0) 255 {} [tileWithoutGid]
        = some { x := 1, y := 0,
                 tiles := [{ hasTexture := true,
                             textureRect := { left := 0, top := 0, width := 16, height := 16 },
                             position := (0, 0) }] }) := by
  decide

/-- C5, amended: a tile element whose `gid` attribute reads less than `firstTileID`, or whose
`gid` attribute is absent while `firstTileID` is at least 1, places no tile: the tile list is
unchanged and the cursor advances by one cell. -/
theorem no_tile_below_first (lv : Level) (subRects : List Rect) (opacity : Int)
    (st0 st : TileLoop) (before : List XMLElement) (tileElement : XMLElement)
    (hbefore : tileLoop lv subRects opacity st0 before = some st)
    (hgid : ((tileElement.FindAttribute "gid").isSome = false ∧ 0 < lv.firstTileID) ∨
      ((tileElement.FindAttribute "gid").isSome = true ∧
        tileElement.IntAttribute "gid" < lv.firstTileID)) :
    tileLoop lv subRects opacity st0 (before ++ [tileElement])
      = some (advanceCursor lv.width lv.height st) ∧
    (advanceCursor lv.width lv.height st).tiles = st.tiles := by
  refine ⟨?_, advanceCursor_tiles _ _ _⟩
  rw [tileLoop_append, hbefore, Option.some_bind, tileLoop_singleton]
  have hneg : ¬ (tileGID tileElement - lv.firstTileID ≥ 0) := by
    unfold tileGID
    rcases hgid with ⟨h1, h2⟩ | ⟨h1, h2⟩
    · simp only [h1, Bool.false_eq_true, if_false]; omega
    · simp only [h1, if_true]; omega
  simp only [tileStep, hneg, if_false]

theorem no_tile_below_first_witness :
    (tileLoop exampleLevel (levelSubRects exampleLevel) 255 {} [tileWithGid "1" 1]
        = some { x := 1, y := 0,
                 tiles := [{ hasTexture := true,
                             textureRect := { left := 0, top := 0, width := 16, height := 16 },
                             position := (0, 0) }] } ∧
      (((tileWithoutGid.FindAttribute "gid").isSome = false ∧ 0 < exampleLevel.firstTileID) ∨
        ((tileWithoutGid.FindAttribute "gid").isSome = true ∧
          tileWithoutGid.IntAttribute "gid" < exampleLevel.firstTileID))) ∧
    (tileLoop exampleLevel (levelSubRects exampleLevel) 255 {}
        ([tileWithGid "1" 1] ++ [tileWithoutGid])
      = some (advanceCursor exampleLevel.width exampleLevel.height
          { x := 1, y := 0,
            tiles := [{ hasTexture := true,
                        textureRect := { left := 0, top := 0, width := 16, height := 16 },
                        position := (0, 0) }] }) ∧
      (advanceCursor exampleLevel.width exampleLevel.height
          { x := 1, y := 0,
            tiles := [{ hasTexture := true,
                        textureRect := { left := 0, top := 0, width := 16, height := 16 },
                        position := (0, 0) }] }).tiles
        = [{ hasTexture := true,
             textureRect := { left := 0, top := 0, width := 16, height := 16 },
             position := (0, 0) }]) :=
  ⟨by decide,
    no_tile_below_first exampleLevel (levelSubRects exampleLevel) 255 {}
      { x := 1, y := 0,
        tiles := [{ hasTexture := true,
                    textureRect := { left := 0, top := 0, width := 16, height := 16 },
                    position := (0, 0) }] }
      [tileWithGid "1" 1] tileWithoutGid (by decide) (by decide)⟩

/-! ## The raster cursor -/

theorem nat_succ_mod_div (a m : Nat) (hm : 0 < m) :
    (a % m + 1 < m → (a + 1) % m = a % m + 1 ∧ (a + 1) / m = a / m) ∧
    (a % m + 1 = m → (a + 1) % m = 0 ∧ (a + 1) / m = a / m + 1) := by
  have hdm := Nat.mod_add_div a m
  constructor
  · intro h
    have h1 : (a + 1) / m = a / m ∧ (a + 1) % m = a % m + 1 :=
      (Nat.div_mod_unique hm).mpr ⟨by omega, h⟩
    exact ⟨h1.2, h1.1⟩
  · intro h
    have h1 : (a + 1) / m = a / m + 1 ∧ (a + 1) % m = 0 :=
      (Nat.div_mod_unique hm).mpr ⟨by rw [Nat.mul_add]; omega, hm⟩
    exact ⟨h1.2, h1.1⟩

/-- One cursor update moves the cursor from the cell of the `n`-th element to the cell of the
next one. -/
theorem advanceCursor_cell (W H n : Nat) (hW : 0 < W) (hH : 0 < H) (s : TileLoop)
    (hx : s.x = ((n % W : Nat) : Int)) (hy : s.y = (((n / W) % H : Nat) : Int)) :
    (advanceCursor W H s).x = (((n + 1) % W : Nat) : Int) ∧
    (advanceCursor W H s).y = ((((n + 1) / W) % H : Nat) : Int) := by
  have hxlt : n % W < W := Nat.mod_lt _ hW
  have hylt : (n / W) % H < H := Nat.mod_lt _ hH
  obtain ⟨hA, hB⟩ := nat_succ_mod_div n W hW
  obtain ⟨hC, hD⟩ := nat_succ_mod_div (n / W) H hH
  unfold advanceCursor
  simp only [hx, hy]
  split_ifs with h1 h2
  · have e1 : n % W + 1 = W := by omega
    have e2 : (n / W) % H + 1 = H := by omega
    obtain ⟨m1, d1⟩ := hB e1
    obtain ⟨m2, _⟩ := hD e2
    simp [m1, d1, m2]
  · have e1 : n % W + 1 = W := by omega
    have e2 : (n / W) % H + 1 < H := by omega
    obtain ⟨m1, d1⟩ := hB e1
    obtain ⟨m2, _⟩ := hC e2
    simp [m1, d1, m2]
  · have e1 : n % W + 1 < W := by omega
    obtain ⟨m1, d1⟩ := hA e1
    simp [m1, d1]

theorem advanceCursor_xy_tiles (width height : Int) (s : TileLoop) (T : List Sprite) :
    (advanceCursor width height { s with tiles := T }).x = (advanceCursor width height s).x ∧
    (advanceCursor width height { s with tiles := T }).y = (advanceCursor width height s).y := by
  unfold advanceCursor
  simp only
  split_ifs <;> exact ⟨rfl, rfl⟩

/-- Whether or not a tile is placed, one step moves the cursor by one cursor update. -/
theorem tileStep_cursor (lv : Level) (subRects : List Rect) (opacity : Int)
    (s st : TileLoop) (e : XMLElement) (h : tileStep lv subRects opacity s e = some st) :
    st.x = (advanceCursor lv.width lv.height s).x ∧
    st.y = (advanceCursor lv.width lv.height s).y := by
  unfold tileStep at h
  simp only at h
  split_ifs at h with h0
  · cases hv : vectorAt subRects (tileGID e - lv.firstTileID) with
    | none => rw [hv] at h; exact Option.noConfusion h
    | some r =>
      rw [hv] at h
      rw [← Option.some.inj h]
      exact advanceCursor_xy_tiles _ _ _ _
  · rw [← Option.some.inj h]
    exact ⟨rfl, rfl⟩

/-- The cursor after `n` tile elements, whatever they place: `(n mod width, (n div width) mod
height)`. -/
theorem tileLoop_cursor (lv : Level) (subRects : List Rect) (opacity : Int) (W H : Nat)
    (hW : 0 < W) (hH : 0 < H) (hw : lv.width = (W : Int)) (hh : lv.height = (H : Int))
    (l : List XMLElement) (st : TileLoop)
    (h : tileLoop lv subRects opacity {} l = some st) :
    st.x = ((l.length % W : Nat) : Int) ∧ st.y = (((l.length / W) % H : Nat) : Int) := by
  induction l using List.reverseRecOn generalizing st with
  | nil =>
    simp only [tileLoop] at h
    rw [← Option.some.inj h]
    simp
  | append_singleton l e ih =>
    rw [tileLoop_append] at h
    cases hl : tileLoop lv subRects opacity {} l with
    | none => rw [hl] at h; exact Option.noConfusion h
    | some s =>
      rw [hl, Option.some_bind, tileLoop_singleton] at h
      obtain ⟨hx, hy⟩ := ih s hl
      obtain ⟨cx, cy⟩ := tileStep_cursor lv subRects opacity s st e h
      rw [hw, hh] at cx cy
      obtain ⟨ax, ay⟩ := advanceCursor_cell W H l.length hW hH s hx hy
      rw [List.length_append, List.length_singleton, cx, cy]
      exact ⟨ax, ay⟩

/-- The tile loop is defined when every index that is not negative lies inside the table. -/
theorem tileLoop_defined (lv : Level) (subRects : List Rect) (opacity : Int)
    (l : List XMLElement) (st0 : TileLoop)
    (h : ∀ t ∈ l, tileGID t - lv.firstTileID < 0 ∨
      tileGID t - lv.firstTileID < (subRects.length : Int)) :
    ∃ st, tileLoop lv subRects opacity st0 l = some st := by
  induction l generalizing st0 with
  | nil => exact ⟨st0, rfl⟩
  | cons e l ih =>
    have hstep : ∃ s, tileStep lv subRects opacity st0 e = some s := by
      unfold tileStep
      simp only
      split_ifs with h0
      · have hlt : tileGID e - lv.firstTileID < (subRects.length : Int) := by
          rcases h e (List.mem_cons_self _ _) with h1 | h1
          · omega
          · exact h1
        obtain ⟨r, hr⟩ := vectorAt_in_range subRects _ h0 hlt
        rw [hr]
        exact ⟨_, rfl⟩
      · exact ⟨_, rfl⟩
    obtain ⟨s, hs⟩ := hstep
    obtain ⟨st, hst⟩ := ih s (fun t ht => h t (List.mem_cons_of_mem _ ht))
    exact ⟨st, by simp only [tileLoop, hs, hst]⟩

/-- C6: for `width >= 1`, `height >= 1` and a layer of exactly `width * height` tile elements:
the loop runs to the end when no index leaves the table, and then ends with the cursor at
`(0, 0)`; before the `n`-th element (`n < width * height`) is read the cursor is
`(n mod width, n div width)`, so `x` returns to 0 only after a whole row of `width` cells and
`y` is never reset before the end; after the last element the cursor is `(0, 0)`. -/
theorem cursor_on_full_layer (lv : Level) (subRects : List Rect) (opacity : Int)
    (tiles : List XMLElement) (hw : 1 ≤ lv.width) (hh : 1 ≤ lv.height)
    (hlen : (tiles.length : Int) = lv.width * lv.height) :
    ((∀ t ∈ tiles, tileGID t - lv.firstTileID < 0 ∨
        tileGID t - lv.firstTileID < (subRects.length : Int)) →
      ∃ st, tileLoop lv subRects opacity {} tiles = some st ∧ st.x = 0 ∧ st.y = 0) ∧
    (∀ (n : Nat) (st : TileLoop), n < tiles.length →
      tileLoop lv subRects opacity {} (tiles.take n) = some st →
      st.x = (n : Int) % lv.width ∧ st.y = (n : Int) / lv.width ∧ st.y < lv.height) ∧
    (∀ st : TileLoop, tileLoop lv subRects opacity {} tiles = some st →
      st.x = 0 ∧ st.y = 0) := by
  obtain ⟨W, hWeq⟩ : ∃ W : Nat, lv.width = (W : Int) := ⟨lv.width.toNat, by omega⟩
  obtain ⟨H, hHeq⟩ : ∃ H : Nat, lv.height = (H : Int) := ⟨lv.height.toNat, by omega⟩
  have hW : 0 < W := by omega
  have hH : 0 < H := by omega
  have hlenN : tiles.length = W * H := by
    rw [hWeq, hHeq] at hlen
    exact_mod_cast hlen
  have hend : ∀ st : TileLoop, tileLoop lv subRects opacity {} tiles = some st →
      st.x = 0 ∧ st.y = 0 := by
    intro st hst
    obtain ⟨hx, hy⟩ := tileLoop_cursor lv subRects opacity W H hW hH hWeq hHeq tiles st hst
    rw [hlenN] at hx hy
    rw [hx, hy, Nat.mul_mod_right, Nat.mul_div_cancel_left _ hW, Nat.mod_self]
    exact ⟨rfl, rfl⟩
  refine ⟨?_, ?_, hend⟩
  · intro hall
    obtain ⟨st, hst⟩ := tileLoop_defined lv subRects opacity tiles {} hall
    exact ⟨st, hst, hend st hst⟩
  · intro n st hn hst
    obtain ⟨hx, hy⟩ :=
      tileLoop_cursor lv subRects opacity W H hW hH hWeq hHeq (tiles.take n) st hst
    have hlt : (tiles.take n).length = n := by
      rw [List.length_take]; omega
    rw [hlt] at hx hy
    have hdiv : n / W < H := by
      apply Nat.div_lt_of_lt_mul
      rw [← hlenN]; exact hn
    rw [Nat.mod_eq_of_lt hdiv] at hy
    rw [hx, hy, hWeq, hHeq]
    refine ⟨by push_cast; rfl, by push_cast; rfl, by exact_mod_cast hdiv⟩

theorem cursor_on_full_layer_witness :
    (1 ≤ exampleLevel.width ∧ 1 ≤ exampleLevel.height ∧
      (([tileWithGid "1" 1, tileWithGid "2" 2].length : Nat) : Int)
        = exampleLevel.width * exampleLevel.height) ∧
    (∃ st, tileLoop exampleLevel (levelSubRects exampleLevel) 255 {}
        [tileWithGid "1" 1, tileWithGid "2" 2] = some st ∧ st.x = 0 ∧ st.y = 0) :=
  ⟨by decide,
    (cursor_on_full_layer exampleLevel (levelSubRects exampleLevel) 255
      [tileWithGid "1" 1, tileWithGid "2" 2] (by decide) (by decide) (by decide)).1
      (by decide)⟩

/-! ## C7: rectangle and visual reference of an object -/

theorem parseProperties_defined (l : List XMLElement) (m : StdMap)
    (h : ∀ p ∈ l, (p.Attribute "name").isSome = true ∧ (p.Attribute "value").isSome = true) :
    ∃ m1, parseProperties m l = some m1 := by
  induction l generalizing m with
  | nil => exact ⟨m, rfl⟩
  | cons p l ih =>
    obtain ⟨hn, hv⟩ := h p (List.mem_cons_self _ _)
    obtain ⟨k, hk⟩ := Option.isSome_iff_exists.mp hn
    obtain ⟨v, hv1⟩ := Option.isSome_iff_exists.mp hv
    obtain ⟨m1, hm1⟩ := ih (StdMap.assign m k v) (fun q hq => h q (List.mem_cons_of_mem _ hq))
    exact ⟨m1, by simp only [parseProperties, hk, hv1, hm1]⟩

/-- The geometry of an object is defined when a `gid` attribute, if there is one, gives an
index inside the table. -/
theorem objectGeometry_defined (lv : Level) (subRects : List Rect) (o : XMLElement)
    (h : (o.FindAttribute "gid").isSome = true →
      0 ≤ o.IntAttribute "gid" - lv.firstTileID ∧
      o.IntAttribute "gid" - lv.firstTileID < (subRects.length : Int)) :
    ∃ g, objectGeometry lv subRects o = some g := by
  unfold objectGeometry
  cases hg : (o.FindAttribute "gid").isSome with
  | false =>
    simp only [Bool.false_eq_true, if_false]
    split_ifs <;> exact ⟨_, rfl⟩
  | true =>
    obtain ⟨h0, h1⟩ := h hg
    obtain ⟨r, hr⟩ := vectorAt_in_range subRects _ h0 h1
    simp only [if_true, hr]
    split_ifs <;> exact ⟨_, rfl⟩

theorem parseObject_defined (lv : Level) (subRects : List Rect) (o : XMLElement)
    (hgid : (o.FindAttribute "gid").isSome = true →
      0 ≤ o.IntAttribute "gid" - lv.firstTileID ∧
      o.IntAttribute "gid" - lv.firstTileID < (subRects.length : Int))
    (hprops : ∀ P, o.FirstChildElement "properties" = some P →
      ∀ p ∈ P.childElements "property",
        (p.Attribute "name").isSome = true ∧ (p.Attribute "value").isSome = true) :
    ∃ obj, parseObject lv subRects o = some obj := by
  obtain ⟨⟨w, ht, sp⟩, hg⟩ := objectGeometry_defined lv subRects o hgid
  unfold parseObject
  simp only [hg]
  cases hp : o.FirstChildElement "properties" with
  | none => exact ⟨_, rfl⟩
  | some P =>
    obtain ⟨m, hm⟩ := parseProperties_defined (P.childElements "property") [] (hprops P hp)
    simp only [hm]
    exact ⟨_, rfl⟩

/-- C7: the object built for an `object` element (it is built whenever its `gid`, if present,
indexes the table and its properties carry `name` and `value`).  With a `width` attribute the
rectangle is `(x, y, width, height)` from the attributes and the sprite shows
`subRects[gid - firstTileID]` when a `gid` attribute is present, the zero rectangle otherwise;
without `width` but with `gid`, width and height are those of `subRects[gid - firstTileID]`,
which the sprite shows; with neither, the rectangle is `(x, y, 0, 0)` and the sprite shows the
zero rectangle. -/
theorem object_geometry_priority (lv : Level) (subRects : List Rect) (o : XMLElement) :
    (((o.FindAttribute "gid").isSome = true →
        0 ≤ o.IntAttribute "gid" - lv.firstTileID ∧
        o.IntAttribute "gid" - lv.firstTileID < (subRects.length : Int)) →
      (∀ P, o.FirstChildElement "properties" = some P →
        ∀ p ∈ P.childElements "property",
          (p.Attribute "name").isSome = true ∧ (p.Attribute "value").isSome = true) →
      ∃ obj, parseObject lv subRects o = some obj) ∧
    (∀ obj, parseObject lv subRects o = some obj →
      ((o.FindAttribute "width").isSome = true →
        obj.rect = { left := o.IntAttribute "x", top := o.IntAttribute "y",
                     width := o.IntAttribute "width", height := o.IntAttribute "height" } ∧
        ((o.FindAttribute "gid").isSome = true →
          vectorAt subRects (o.IntAttribute "gid" - lv.firstTileID)
            = some obj.sprite.textureRect) ∧
        ((o.FindAttribute "gid").isSome = false →
          obj.sprite.textureRect = { left := 0, top := 0, width := 0, height := 0 })) ∧
      ((o.FindAttribute "width").isSome = false → (o.FindAttribute "gid").isSome = true →
        ∃ r, vectorAt subRects (o.IntAttribute "gid" - lv.firstTileID) = some r ∧
          obj.rect = { left := o.IntAttribute "x", top := o.IntAttribute "y",
                       width := r.width, height := r.height } ∧
          obj.sprite.textureRect = r) ∧
      ((o.FindAttribute "width").isSome = false → (o.FindAttribute "gid").isSome = false →
        obj.rect = { left := o.IntAttribute "x", top := o.IntAttribute "y",
                     width := 0, height := 0 } ∧
        obj.sprite.textureRect = { left := 0, top := 0, width := 0, height := 0 })) := by
  refine ⟨parseObject_defined lv subRects o, ?_⟩
  intro obj hobj
  obtain ⟨g, hg, hrect, hsprite, _, _⟩ := parseObject_some_geometry lv subRects o obj hobj
  rw [hrect, hsprite]
  unfold objectGeometry at hg
  refine ⟨?_, ?_, ?_⟩
  · intro hw
    simp only [hw, if_true] at hg
    cases hgid : (o.FindAttribute "gid").isSome with
    | false =>
      simp only [hgid, Bool.false_eq_true, if_false] at hg
      rw [← Option.some.inj hg]
      simp [Sprite.setTexture, Sprite.setTextureRect, Sprite.setPosition]
    | true =>
      simp only [hgid, if_true] at hg
      cases hv : vectorAt subRects (o.IntAttribute "gid" - lv.firstTileID) with
      | none => simp [hv] at hg
      | some r =>
        simp only [hv] at hg
        rw [← Option.some.inj hg]
        simp [Sprite.setTextureRect]
  · intro hw hgid
    simp only [hw, hgid, Bool.false_eq_true, if_false, if_true] at hg
    cases hv : vectorAt subRects (o.IntAttribute "gid" - lv.firstTileID) with
    | none => simp [hv] at hg
    | some r =>
      simp only [hv] at hg
      rw [← Option.some.inj hg]
      exact ⟨r, rfl, rfl, rfl⟩
  · intro hw hgid
    simp only [hw, hgid, Bool.false_eq_true, if_false] at hg
    rw [← Option.some.inj hg]
    simp [Sprite.setTexture, Sprite.setTextureRect, Sprite.setPosition]

theorem object_geometry_priority_witness :
    parseObject exampleLevel (levelSubRects exampleLevel) exampleMarker
      = some { name := "", type := "",
               rect := { left := 10, top := 20, width := 0, height := 0 },
               properties := [],
               sprite := { hasTexture := true,
                           textureRect := { left := 0, top := 0, width := 0, height := 0 },
                           position := (10, 20) } } ∧
    ({ left := 10, top := 20, width := 0, height := 0 } : Rect)
        = { left := exampleMarker.IntAttribute "x", top := exampleMarker.IntAttribute "y",
            width := 0, height := 0 } ∧
    ({ left := 0, top := 0, width := 0, height := 0 } : Rect)
        = { left := 0, top := 0, width := 0, height := 0 } :=
  ⟨by decide,
    ((object_geometry_priority exampleLevel (levelSubRects exampleLevel) exampleMarker).2
      { name := "", type := "",
        rect := { left := 10, top := 20, width := 0, height := 0 },
        properties := [],
        sprite := { hasTexture := true,
                    textureRect := { left := 0, top := 0, width := 0, height := 0 },
                    position := (10, 20) } }
      (by decide)).2.2 (by decide) (by decide)⟩

/-! ## C8: the property mapping -/

theorem StdMap.find_assign (m : StdMap) (k v k1 : String) :
    StdMap.find (StdMap.assign m k v) k1 = if k1 = k then some v else StdMap.find m k1 := by
  induction m with
  | nil => simp [StdMap.assign, StdMap.find]
  | cons e m ih =>
    obtain ⟨a, b⟩ := e
    simp only [StdMap.assign]
    by_cases h1 : k = a
    · subst h1
      rw [if_pos rfl]
      simp only [StdMap.find]
      by_cases hk : k1 = k
      · simp only [hk, if_true]
      · simp only [hk, if_false]
    · rw [if_neg h1]
      by_cases h2 : stringLess k.data a.data = true
      · rw [if_pos h2]
        simp only [StdMap.find]
      · rw [if_neg h2]
        simp only [StdMap.find, ih]
        by_cases h3 : k1 = a
        · simp only [h3, if_true]
          rw [if_neg (fun h => h1 h.symm)]
        · simp only [h3, if_false]

theorem StdMap.mem_keys_assign (m : StdMap) (k v k1 : String) :
    k1 ∈ StdMap.keys (StdMap.assign m k v) ↔ k1 = k ∨ k1 ∈ StdMap.keys m := by
  induction m with
  | nil => simp [StdMap.assign, StdMap.keys]
  | cons e m ih =>
    obtain ⟨a, b⟩ := e
    simp only [StdMap.assign]
    by_cases h1 : k = a
    · subst h1
      rw [if_pos rfl]
      simp [StdMap.keys]
    · rw [if_neg h1]
      by_cases h2 : stringLess k.data a.data = true
      · rw [if_pos h2]
        simp [StdMap.keys]
      · rw [if_neg h2]
        have ih1 : k1 ∈ List.map Prod.fst (StdMap.assign m k v)
            ↔ k1 = k ∨ k1 ∈ List.map Prod.fst m := ih
        simp only [StdMap.keys, List.map_cons, List.mem_cons, ih1]
        tauto

theorem StdMap.find_isSome_iff (m : StdMap) (k : String) :
    (StdMap.find m k).isSome = true ↔ k ∈ StdMap.keys m := by
  induction m with
  | nil => simp [StdMap.find, StdMap.keys]
  | cons e m ih =>
    obtain ⟨a, b⟩ := e
    have ih1 : (StdMap.find m k).isSome = true ↔ k ∈ List.map Prod.fst m := ih
    simp only [StdMap.find, StdMap.keys, List.map_cons, List.mem_cons]
    by_cases h : k = a
    · simp [h]
    · simp [h, ih1]

theorem parseProperties_append (l1 l2 : List XMLElement) (m : StdMap) :
    parseProperties m (l1 ++ l2) = (parseProperties m l1).bind fun m1 => parseProperties m1 l2 := by
  induction l1 generalizing m with
  | nil => simp [parseProperties]
  | cons p l1 ih =>
    simp only [List.cons_append, parseProperties]
    cases p.Attribute "name" with
    | none => simp
    | some k =>
      cases p.Attribute "value" with
      | none => simp
      | some v => simpa using ih (StdMap.assign m k v)

/-- The keys after the property loop: the keys before it and the names met in it. -/
theorem parseProperties_keys (l : List XMLElement) (m m1 : StdMap)
    (h : parseProperties m l = some m1) (k : String) :
    k ∈ StdMap.keys m1 ↔ k ∈ StdMap.keys m ∨ ∃ p ∈ l, p.Attribute "name" = some k := by
  induction l generalizing m with
  | nil =>
    simp only [parseProperties] at h
    rw [← Option.some.inj h]
    simp
  | cons p l ih =>
    simp only [parseProperties] at h
    cases hn : p.Attribute "name" with
    | none => simp [hn] at h
    | some a =>
      cases hv : p.Attribute "value" with
      | none => simp [hn, hv] at h
      | some b =>
        simp only [hn, hv] at h
        rw [ih _ h, StdMap.mem_keys_assign]
        simp only [List.mem_cons, exists_eq_or_imp, hn, Option.some.injEq]
        constructor
        · rintro ((h1 | h1) | h1)
          · exact Or.inr (Or.inl h1.symm)
          · exact Or.inl h1
          · exact Or.inr (Or.inr h1)
        · rintro (h1 | h1 | h1)
          · exact Or.inl (Or.inr h1)
          · exact Or.inl (Or.inl h1.symm)
          · exact Or.inr h1

/-- Properties with other names leave the value of a name alone. -/
theorem parseProperties_find_other (l : List XMLElement) (m m1 : StdMap)
    (h : parseProperties m l = some m1) (k : String)
    (hk : ∀ q ∈ l, q.Attribute "name" ≠ some k) :
    StdMap.find m1 k = StdMap.find m k := by
  induction l generalizing m with
  | nil =>
    simp only [parseProperties] at h
    rw [← Option.some.inj h]
  | cons p l ih =>
    simp only [parseProperties] at h
    cases hn : p.Attribute "name" with
    | none => simp [hn] at h
    | some a =>
      cases hv : p.Attribute "value" with
      | none => simp [hn, hv] at h
      | some b =>
        simp only [hn, hv] at h
        rw [ih _ h (fun q hq => hk q (List.mem_cons_of_mem _ hq)), StdMap.find_assign]
        have hne : ¬ k = a := by
          intro hka
          exact hk p (List.mem_cons_self _ _) (by rw [hn, hka])
        rw [if_neg hne]

/-- The value stored for a name is the value of the last property with that name. -/
theorem parseProperties_find_last (pre post : List XMLElement) (p : XMLElement)
    (m m1 : StdMap) (k v : String)
    (h : parseProperties m (pre ++ p :: post) = some m1)
    (hn : p.Attribute "name" = some k) (hv : p.Attribute "value" = some v)
    (hpost : ∀ q ∈ post, q.Attribute "name" ≠ some k) :
    StdMap.find m1 k = some v := by
  rw [parseProperties_append] at h
  cases h1 : parseProperties m pre with
  | none => rw [h1] at h; exact Option.noConfusion h
  | some m2 =>
    rw [h1, Option.some_bind] at h
    simp only [parseProperties, hn, hv] at h
    rw [parseProperties_find_other post _ m1 h k hpost, StdMap.find_assign, if_pos rfl]

theorem parseObject_some_properties (lv : Level) (subRects : List Rect) (o P : XMLElement)
    (obj : Object) (h : parseObject lv subRects o = some obj)
    (hP : o.FirstChildElement "properties" = some P) :
    parseProperties [] (P.childElements "property") = some obj.properties := by
  unfold parseObject at h
  cases hg : objectGeometry lv subRects o with
  | none => simp [hg] at h
  | some g =>
    obtain ⟨w, ht, sp⟩ := g
    simp only [hg, hP] at h
    cases hm : parseProperties [] (P.childElements "property") with
    | none => simp [hm] at h
    | some m =>
      simp only [hm] at h
      rw [← Option.some.inj h]

/-- C8: for an object with a `properties` child (the object is built whenever its `gid`, if
present, indexes the table and every `property` child carries `name` and `value`): the keys of
its property mapping are exactly the names of the `property` children, and
`GetPropertyString` returns for each name the value of the last child with that name, leaving
the object as it is. -/
theorem properties_last_value_wins (lv : Level) (subRects : List Rect) (o P : XMLElement)
    (hP : o.FirstChildElement "properties" = some P) :
    (((o.FindAttribute "gid").isSome = true →
        0 ≤ o.IntAttribute "gid" - lv.firstTileID ∧
        o.IntAttribute "gid" - lv.firstTileID < (subRects.length : Int)) →
      (∀ p ∈ P.childElements "property",
        (p.Attribute "name").isSome = true ∧ (p.Attribute "value").isSome = true) →
      ∃ obj, parseObject lv subRects o = some obj) ∧
    (∀ obj, parseObject lv subRects o = some obj →
      (∀ k, k ∈ StdMap.keys obj.properties ↔
        ∃ p ∈ P.childElements "property", p.Attribute "name" = some k) ∧
      (∀ (pre post : List XMLElement) (p : XMLElement) (k v : String),
        P.childElements "property" = pre ++ p :: post →
        p.Attribute "name" = some k → p.Attribute "value" = some v →
        (∀ q ∈ post, q.Attribute "name" ≠ some k) →
        obj.GetPropertyString k = (v, obj))) := by
  constructor
  · intro hgid hprops
    apply parseObject_defined lv subRects o hgid
    intro P1 hP1
    rw [hP] at hP1
    rw [← Option.some.inj hP1]
    exact hprops
  · intro obj hobj
    have hm := parseObject_some_properties lv subRects o P obj hobj hP
    constructor
    · intro k
      rw [parseProperties_keys _ _ _ hm k]
      simp [StdMap.keys]
    · intro pre post p k v hsplit hn hv hpost
      rw [hsplit] at hm
      have hfind := parseProperties_find_last pre post p [] obj.properties k v hm hn hv hpost
      simp only [Object.GetPropertyString, StdMap.index, hfind]

theorem properties_last_value_wins_witness :
    exampleObjectWithProperties.FirstChildElement "properties"
      = some (.mk "properties" []
          [propertyElement "hp" "3", propertyElement "speed" "2", propertyElement "hp" "7"]) ∧
    parseObject exampleLevel (levelSubRects exampleLevel) exampleObjectWithProperties
      = some { name := "", type := "",
               rect := { left := 10, top := 20, width := 0, height := 0 },
               properties := [("hp", "7"), ("speed", "2")],
               sprite := { hasTexture := true, position := (10, 20) } } ∧
    Object.GetPropertyString
        { name := "", type := "",
          rect := { left := 10, top := 20, width := 0, height := 0 },
          properties := [("hp", "7"), ("speed", "2")],
          sprite := { hasTexture := true, position := (10, 20) } } "hp"
      = ("7", { name := "", type := "",
                rect := { left := 10, top := 20, width := 0, height := 0 },
                properties := [("hp", "7"), ("speed", "2")],
                sprite := { hasTexture := true, position := (10, 20) } }) :=
  ⟨rfl, by decide,
    ((properties_last_value_wins exampleLevel (levelSubRects exampleLevel)
        exampleObjectWithProperties
        (.mk "properties" []
          [propertyElement "hp" "3", propertyElement "speed" "2", propertyElement "hp" "7"])
        rfl).2
      { name := "", type := "",
        rect := { left := 10, top := 20, width := 0, height := 0 },
        properties := [("hp", "7"), ("speed", "2")],
        sprite := { hasTexture := true, position := (10, 20) } }
      (by decide)).2
      [propertyElement "hp" "3", propertyElement "speed" "2"] [] (propertyElement "hp" "7")
      "hp" "7" rfl (by decide) (by decide) (by decide)⟩

/-! ## C9: order of the layers and of the objects -/

theorem tileLoop_congr (lv lv1 : Level) (subRects : List Rect) (opacity : Int)
    (h1 : lv1.width = lv.width) (h2 : lv1.height = lv.height)
    (h3 : lv1.tileWidth = lv.tileWidth) (h4 : lv1.tileHeight = lv.tileHeight)
    (h5 : lv1.firstTileID = lv.firstTileID) (h6 : lv1.tilesetImage = lv.tilesetImage)
    (l : List XMLElement) (st : TileLoop) :
    tileLoop lv1 subRects opacity st l = tileLoop lv subRects opacity st l := by
  induction l generalizing st with
  | nil => rfl
  | cons e l ih =>
    have hstep : tileStep lv1 subRects opacity st e = tileStep lv subRects opacity st e := by
      simp only [tileStep, tileSprite, h1, h2, h3, h4, h5, h6]
    simp only [tileLoop, hstep]
    cases tileStep lv subRects opacity st e with
    | none => rfl
    | some st1 => exact ih st1

/-- C9: after a call that returns `true`, the layer list is the old one followed by one layer
per `layer` element of the map, in document order, and the object list is the old one followed
by one object per `object` element, all groups in document order and within each group its
objects in document order. -/
theorem lists_in_document_order (fs : FileSystem) (lv lv1 : Level) (filename : String)
    (h : LoadFromFile fs lv filename = .returned true lv1) :
    ∃ levelFile map newLayers newObjects,
      fs.LoadFile filename = some levelFile ∧
      levelFile.FirstChildElement "map" = some map ∧
      lv1.layers = lv.layers ++ newLayers ∧
      lv1.objects = lv.objects ++ newObjects ∧
      newLayers.length = (map.childElements "layer").length ∧
      List.Forall₂
        (fun e layer => ∃ data st, e.FirstChildElement "data" = some data ∧
          tileLoop lv1 (levelSubRects lv1) (layerOpacity e) {} (data.childElements "tile")
            = some st ∧
          layer = { opacity := layerOpacity e, tiles := st.tiles })
        (map.childElements "layer") newLayers ∧
      List.Forall₂ (fun o obj => parseObject lv1 (levelSubRects lv1) o = some obj)
        ((map.childElements "objectgroup").flatMap fun g => g.childElements "object")
        newObjects := by
  obtain ⟨levelFile, map, tilesetElement, img, h1, h2, _, hb⟩ := LoadFromFile_true fs lv lv1 filename h
  obtain ⟨l1, hl, ho⟩ := buildLevel_true _ _ _ hb
  obtain ⟨newLayers, rfl, hlayers⟩ := parseLayers_next _ _ _ _ hl
  obtain ⟨objs, rfl, hobjs⟩ := parseObjectGroups_some _ _ _ _ ho
  refine ⟨levelFile, map, newLayers, objs, h1, h2, rfl, rfl, hlayers.length_eq.symm, ?_, ?_⟩
  · refine List.Forall₂.imp ?_ hlayers
    rintro e layer ⟨data, st, hd, ht, hlayer⟩
    refine ⟨data, st, hd, ?_, hlayer⟩
    rw [← ht]
    refine tileLoop_congr (loadedLevel lv map tilesetElement img) _ _ _ ?_ ?_ ?_ ?_ ?_ ?_ _ _ <;> rfl
  · refine List.Forall₂.imp ?_ hobjs
    intro o obj hobj
    rw [← hobj]
    rfl

theorem lists_in_document_order_witness :
    LoadFromFile (exampleFiles exampleMapGroups) freshLevel "level.tmx"
      = .returned true exampleLevelGroups ∧
    ∃ levelFile map newLayers newObjects,
      (exampleFiles exampleMapGroups).LoadFile "level.tmx" = some levelFile ∧
      levelFile.FirstChildElement "map" = some map ∧
      exampleLevelGroups.layers = freshLevel.layers ++ newLayers ∧
      exampleLevelGroups.objects = freshLevel.objects ++ newObjects ∧
      newLayers.length = (map.childElements "layer").length ∧
      List.Forall₂
        (fun e layer => ∃ data st, e.FirstChildElement "data" = some data ∧
          tileLoop exampleLevelGroups (levelSubRects exampleLevelGroups) (layerOpacity e) {}
            (data.childElements "tile") = some st ∧
          layer = { opacity := layerOpacity e, tiles := st.tiles })
        (map.childElements "layer") newLayers ∧
      List.Forall₂
        (fun o obj => parseObject exampleLevelGroups (levelSubRects exampleLevelGroups) o
          = some obj)
        ((map.childElements "objectgroup").flatMap fun g => g.childElements "object")
        newObjects :=
  ⟨by decide,
    lists_in_document_order (exampleFiles exampleMapGroups) freshLevel exampleLevelGroups
      "level.tmx" (by decide)⟩

/-! ## C10: `GetObject` -/

theorem findObject_append (pre post : List Object) (o : Object) (name : String)
    (ho : o.name = name) (hpre : ∀ p ∈ pre, p.name ≠ name) :
    findObject (pre ++ o :: post) name = o := by
  induction pre with
  | nil => simp [findObject, ho]
  | cons a pre ih =>
    have ha : ¬ a.name = name := hpre a (List.mem_cons_self _ _)
    simp only [List.cons_append, findObject, if_neg ha]
    exact ih (fun p hp => hpre p (List.mem_cons_of_mem _ hp))

theorem findObject_no_match (l : List Object) (name : String)
    (h : ∀ o ∈ l, o.name ≠ name) : findObject l name = {} := by
  induction l with
  | nil => rfl
  | cons a l ih =>
    have ha : ¬ a.name = name := h a (List.mem_cons_self _ _)
    simp only [findObject, if_neg ha]
    exact ih (fun o ho => h o (List.mem_cons_of_mem _ ho))

/-- C10: `GetObject(name)` returns the first object of the list whose name is `name`, and the
default-constructed object when no object has that name; the level, its object list included,
is the same after the call. -/
theorem GetObject_first_match (lv : Level) (name : String) :
    (∀ (pre post : List Object) (o : Object), lv.objects = pre ++ o :: post →
      o.name = name → (∀ p ∈ pre, p.name ≠ name) → (GetObject lv name).1 = o) ∧
    ((∀ o ∈ lv.objects, o.name ≠ name) → (GetObject lv name).1 = {}) ∧
    (GetObject lv name).2 = lv := by
  refine ⟨?_, ?_, rfl⟩
  · intro pre post o hsplit ho hpre
    simp only [GetObject, hsplit]
    exact findObject_append pre post o name ho hpre
  · intro hnone
    simp only [GetObject]
    exact findObject_no_match lv.objects name hnone

theorem GetObject_first_match_witness :
    (GetObject exampleLevelGroups "a").1 = markerObject "a" 1 2 ∧
    (GetObject exampleLevelGroups "c").1 = {} ∧
    (GetObject exampleLevelGroups "a").2 = exampleLevelGroups :=
  ⟨(GetObject_first_match exampleLevelGroups "a").1 []
      [markerObject "b" 3 4, markerObject "a" 5 6] (markerObject "a" 1 2)
      (by decide) (by decide) (by decide),
    (GetObject_first_match exampleLevelGroups "c").2.1 (by decide),
    (GetObject_first_match exampleLevelGroups "a").2.2⟩

/-! ## C11: `GetObjects` -/

theorem foldl_push_filter (name : String) (l init : List Object) :
    l.foldl (fun vec object => if object.name = name then vec ++ [object] else vec) init
      = init ++ l.filter fun o => decide (o.name = name) := by
  induction l generalizing init with
  | nil => simp
  | cons a l ih =>
    simp only [List.foldl_cons, ih, List.filter_cons]
    by_cases h : a.name = name
    · simp [h]
    · simp [h]

/-- The vector returned by `GetObjects` holds the objects called `name`, in list order. -/
theorem GetObjects_eq_filter (lv : Level) (name : String) :
    (GetObjects lv name).1 = lv.objects.filter fun o => decide (o.name = name) := by
  simp only [GetObjects, foldl_push_filter, List.nil_append]

/-- The object returned by `GetObject` is the first of the objects called `name`, or the
default-constructed object. -/
theorem findObject_eq_head_filter (l : List Object) (name : String) :
    findObject l name = ((l.filter fun o => decide (o.name = name)).head?).getD {} := by
  induction l with
  | nil => rfl
  | cons a l ih =>
    simp only [findObject, List.filter_cons]
    by_cases h : a.name = name
    · simp [h]
    · simp [h, ih]

/-- C11: `GetObjects(name)` returns exactly the objects of the list whose name equals `name`,
in their original order (the filter of the list by name equality); the result is empty if and
only if no object has that name; the level is the same after the call. -/
theorem GetObjects_is_filter (lv : Level) (name : String) :
    (GetObjects lv name).1 = (lv.objects.filter fun o => decide (o.name = name)) ∧
    ((GetObjects lv name).1 = [] ↔ ∀ o ∈ lv.objects, o.name ≠ name) ∧
    (GetObjects lv name).2 = lv := by
  refine ⟨GetObjects_eq_filter lv name, ?_, rfl⟩
  rw [GetObjects_eq_filter, List.filter_eq_nil_iff]
  constructor
  · intro h o ho hname
    exact h o ho (decide_eq_true hname)
  · intro h o ho hdec
    exact h o ho (of_decide_eq_true hdec)

theorem GetObjects_is_filter_witness :
    (GetObjects exampleLevelGroups "a").1 = [markerObject "a" 1 2, markerObject "a" 5 6] ∧
    (GetObjects exampleLevelGroups "c").1 = [] ∧
    (GetObjects exampleLevelGroups "a").2 = exampleLevelGroups :=
  ⟨(GetObjects_is_filter exampleLevelGroups "a").1.trans (by decide),
    (GetObjects_is_filter exampleLevelGroups "c").2.1.mpr (by decide),
    (GetObjects_is_filter exampleLevelGroups "a").2.2⟩

/-! ## C19: `GetObject` and `GetObjects` agree -/

/-- C19: when `GetObjects(name)` is not empty, `GetObject(name)` is its first element; when it
is empty, `GetObject(name)` is the default-constructed object. -/
theorem GetObject_agrees_with_GetObjects (lv : Level) (name : String) :
    (∀ (o : Object) (rest : List Object), (GetObjects lv name).1 = o :: rest →
      (GetObject lv name).1 = o) ∧
    ((GetObjects lv name).1 = [] → (GetObject lv name).1 = {}) := by
  have hget : (GetObject lv name).1
      = (((GetObjects lv name).1).head?).getD {} := by
    rw [GetObjects_eq_filter]
    exact findObject_eq_head_filter lv.objects name
  constructor
  · intro o rest h
    rw [hget, h]
    rfl
  · intro h
    rw [hget, h]
    rfl

theorem GetObject_agrees_with_GetObjects_witness :
    (GetObjects exampleLevelGroups "a").1 = [markerObject "a" 1 2, markerObject "a" 5 6] ∧
    (GetObject exampleLevelGroups "a").1 = markerObject "a" 1 2 ∧
    (GetObjects exampleLevelGroups "c").1 = [] ∧
    (GetObject exampleLevelGroups "c").1 = {} :=
  ⟨by decide,
    (GetObject_agrees_with_GetObjects exampleLevelGroups "a").1 (markerObject "a" 1 2)
      [markerObject "a" 5 6] (by decide),
    by decide,
    (GetObject_agrees_with_GetObjects exampleLevelGroups "c").2 (by decide)⟩

/-! ## C12: the result of a find without match -/

theorem mapData_fields (a b : Level) (h : b.mapData = a.mapData) :
    b.width = a.width ∧ b.height = a.height ∧ b.tileWidth = a.tileWidth ∧
    b.tileHeight = a.tileHeight ∧ b.firstTileID = a.firstTileID ∧
    b.tilesetImage = a.tilesetImage := by
  simp only [Level.mapData, Prod.mk.injEq] at h
  exact h

theorem tileLoop_mapData (a b : Level) (h : b.mapData = a.mapData) (subRects : List Rect)
    (opacity : Int) (l : List XMLElement) (st : TileLoop) :
    tileLoop b subRects opacity st l = tileLoop a subRects opacity st l := by
  obtain ⟨h1, h2, h3, h4, h5, h6⟩ := mapData_fields a b h
  exact tileLoop_congr a b subRects opacity h1 h2 h3 h4 h5 h6 l st

theorem parseObject_mapData (a b : Level) (h : b.mapData = a.mapData) (subRects : List Rect)
    (o : XMLElement) : parseObject b subRects o = parseObject a subRects o := by
  obtain ⟨_, _, _, _, h5, h6⟩ := mapData_fields a b h
  simp only [parseObject, objectGeometry, h5, h6]

theorem levelSubRects_mapData (a b : Level) (h : b.mapData = a.mapData) :
    levelSubRects b = levelSubRects a := by
  obtain ⟨_, _, h3, h4, _, h6⟩ := mapData_fields a b h
  simp only [levelSubRects, tilesetColumns, tilesetRows, h3, h4, h6]

/-- The body of the layer loop on a `layer` element with a `data` child whose tile loop is
defined. -/
theorem parseLayer_of_data (lv : Level) (subRects : List Rect) (e data : XMLElement)
    (st : TileLoop) (hd : e.FirstChildElement "data" = some data)
    (ht : tileLoop lv subRects (layerOpacity e) {} (data.childElements "tile") = some st) :
    parseLayer lv subRects e
      = .next { lv with layers := lv.layers ++ [{ opacity := layerOpacity e, tiles := st.tiles }] } := by
  simp only [parseLayer, hd, ht]

theorem parseLayer_no_data (lv : Level) (subRects : List Rect) (e : XMLElement)
    (hd : e.FirstChildElement "data" = none) :
    parseLayer lv subRects e = .ret false lv := by
  simp only [parseLayer, hd]

/-- The layers that the layer loop appends do not depend on the lists of the level. -/
theorem parseLayers_frame (subRects : List Rect) (es : List XMLElement) (a b r : Level)
    (hab : b.mapData = a.mapData) (h : parseLayers subRects a es = .next r) :
    ∃ newLayers, r = { a with layers := a.layers ++ newLayers } ∧
      parseLayers subRects b es = .next { b with layers := b.layers ++ newLayers } := by
  induction es generalizing a b with
  | nil =>
    simp only [parseLayers] at h
    refine ⟨[], ?_, ?_⟩
    · rw [← Flow.next.inj h]; simp
    · simp [parseLayers]
  | cons e es ih =>
    simp only [parseLayers] at h
    cases hp : parseLayer a subRects e with
    | undefined => simp [hp] at h
    | ret b2 l2 => simp [hp] at h
    | next l2 =>
      simp only [hp] at h
      obtain ⟨data, st, hd, ht, rfl⟩ := parseLayer_next a l2 subRects e hp
      have htb : tileLoop b subRects (layerOpacity e) {} (data.childElements "tile") = some st :=
        (tileLoop_mapData a b hab _ _ _ _).trans ht
      have hpb := parseLayer_of_data b subRects e data st hd htb
      obtain ⟨rest, hr, hb⟩ := ih _
        { b with layers := b.layers ++ [{ opacity := layerOpacity e, tiles := st.tiles }] }
        (by simpa [Level.mapData] using hab) h
      refine ⟨{ opacity := layerOpacity e, tiles := st.tiles } :: rest, ?_, ?_⟩
      · rw [hr]; simp
      · simp only [parseLayers, hpb]
        rw [hb]; simp

theorem parseObjectGroup_frame (subRects : List Rect) (os : List XMLElement) (a b r : Level)
    (hab : b.mapData = a.mapData) (h : parseObjectGroup subRects a os = some r) :
    ∃ objs, r = { a with objects := a.objects ++ objs } ∧
      parseObjectGroup subRects b os = some { b with objects := b.objects ++ objs } := by
  induction os generalizing a b with
  | nil =>
    simp only [parseObjectGroup] at h
    refine ⟨[], ?_, ?_⟩
    · rw [← Option.some.inj h]; simp
    · simp [parseObjectGroup]
  | cons o os ih =>
    simp only [parseObjectGroup] at h
    cases hp : parseObject a subRects o with
    | none => simp [hp] at h
    | some obj =>
      simp only [hp] at h
      have hpb : parseObject b subRects o = some obj :=
        (parseObject_mapData a b hab subRects o).trans hp
      obtain ⟨rest, hr, hb⟩ := ih _ { b with objects := b.objects ++ [obj] }
        (by simpa [Level.mapData] using hab) h
      refine ⟨obj :: rest, ?_, ?_⟩
      · rw [hr]; simp
      · simp only [parseObjectGroup, hpb]
        rw [hb]; simp

theorem parseObjectGroups_frame (subRects : List Rect) (gs : List XMLElement) (a b r : Level)
    (hab : b.mapData = a.mapData) (h : parseObjectGroups subRects a gs = some r) :
    ∃ objs, r = { a with objects := a.objects ++ objs } ∧
      parseObjectGroups subRects b gs = some { b with objects := b.objects ++ objs } := by
  induction gs generalizing a b with
  | nil =>
    simp only [parseObjectGroups] at h
    refine ⟨[], ?_, ?_⟩
    · rw [← Option.some.inj h]; simp
    · simp [parseObjectGroups]
  | cons g gs ih =>
    simp only [parseObjectGroups] at h
    cases hp : parseObjectGroup subRects a (g.childElements "object") with
    | none => simp [hp] at h
    | some l2 =>
      simp only [hp] at h
      obtain ⟨objs1, rfl, hb1⟩ := parseObjectGroup_frame subRects _ a b l2 hab hp
      obtain ⟨objs2, hr, hb2⟩ := ih _ { b with objects := b.objects ++ objs1 }
        (by simpa [Level.mapData] using hab) h
      refine ⟨objs1 ++ objs2, ?_, ?_⟩
      · rw [hr]; simp
      · simp only [parseObjectGroups, hb1]
        rw [hb2]; simp

/-! ## C20: a load appends to the lists -/

/-- With the document, the `map` element, the tileset, its image and the atlas at hand, the call
stores the map data and builds the level. -/
theorem LoadFromFile_of_chain (fs : FileSystem) (lv : Level) (filename : String)
    (levelFile : XMLDocument) (map tilesetElement image : XMLElement) (imagepath : String)
    (img : Image)
    (h1 : fs.LoadFile filename = some levelFile)
    (h2 : levelFile.FirstChildElement "map" = some map)
    (h3 : map.FirstChildElement "tileset" = some tilesetElement)
    (h4 : tilesetElement.FirstChildElement "image" = some image)
    (h5 : image.Attribute "source" = some imagepath)
    (h6 : fs.loadFromFile imagepath = some img) :
    LoadFromFile fs lv filename = buildLevel (loadedLevel lv map tilesetElement img) map := by
  simp only [LoadFromFile, h1, h2, h3, h4, h5, h6]
  rfl

theorem LoadFromFile_true_chain (fs : FileSystem) (lv lv1 : Level) (filename : String)
    (h : LoadFromFile fs lv filename = .returned true lv1) :
    ∃ levelFile map tilesetElement image imagepath img,
      fs.LoadFile filename = some levelFile ∧
      levelFile.FirstChildElement "map" = some map ∧
      map.FirstChildElement "tileset" = some tilesetElement ∧
      tilesetElement.FirstChildElement "image" = some image ∧
      image.Attribute "source" = some imagepath ∧
      fs.loadFromFile imagepath = some img ∧
      buildLevel (loadedLevel lv map tilesetElement img) map = .returned true lv1 := by
  unfold LoadFromFile at h
  cases h1 : fs.LoadFile filename with
  | none => simp [h1] at h
  | some levelFile =>
    simp only [h1] at h
    cases h2 : levelFile.FirstChildElement "map" with
    | none => simp [h2] at h
    | some map =>
      simp only [h2] at h
      cases h3 : map.FirstChildElement "tileset" with
      | none => simp [h3] at h
      | some tilesetElement =>
        simp only [h3] at h
        cases h4 : tilesetElement.FirstChildElement "image" with
        | none => simp [h4] at h
        | some image =>
          simp only [h4] at h
          cases h5 : image.Attribute "source" with
          | none => simp [h5] at h
          | some imagepath =>
            simp only [h5] at h
            cases h6 : fs.loadFromFile imagepath with
            | none => simp [h6] at h
            | some img =>
              simp only [h6] at h
              exact ⟨levelFile, map, tilesetElement, image, imagepath, img, rfl, h2, h3, h4, h5,
                h6, h⟩

/-- The layers and objects that a successful build appends do not depend on the lists of the
level it starts from. -/
theorem buildLevel_frame (a b r : Level) (map : XMLElement) (hab : b.mapData = a.mapData)
    (h : buildLevel a map = .returned true r) :
    ∃ newLayers newObjects,
      r = { a with layers := a.layers ++ newLayers, objects := a.objects ++ newObjects } ∧
      buildLevel b map
        = .returned true
            { b with layers := b.layers ++ newLayers, objects := b.objects ++ newObjects } := by
  obtain ⟨l1, hl, ho⟩ := buildLevel_true a r map h
  have hcond : ¬ (toUnsigned a.tileWidth = 0 ∨ toUnsigned a.tileHeight = 0) := by
    intro hc
    simp [buildLevel, hc] at h
  obtain ⟨_, _, h3, h4, _, _⟩ := mapData_fields a b hab
  obtain ⟨newLayers, rfl, hlb⟩ := parseLayers_frame _ _ a b l1 hab hl
  obtain ⟨newObjects, rfl, hob⟩ := parseObjectGroups_frame _ _ _
    { b with layers := b.layers ++ newLayers } r (by simpa [Level.mapData] using hab) ho
  refine ⟨newLayers, newObjects, rfl, ?_⟩
  have hcondb : ¬ (toUnsigned b.tileWidth = 0 ∨ toUnsigned b.tileHeight = 0) := by
    rw [h3, h4]; exact hcond
  simp only [buildLevel, if_neg hcondb, levelSubRects_mapData a b hab, hlb, hob]

/-- C20: a successful load keeps the layers and objects the level already holds, unchanged and
in place, and appends those of the map; what it appends does not depend on the level it is
called on, so a second load of the same map appends the same layers and objects again. -/
theorem load_appends_to_lists (fs : FileSystem) (lv lv1 : Level) (filename : String)
    (h : LoadFromFile fs lv filename = .returned true lv1) :
    ∃ newLayers newObjects,
      lv1.layers = lv.layers ++ newLayers ∧
      lv1.objects = lv.objects ++ newObjects ∧
      (∀ lv2 : Level, ∃ lv3,
        LoadFromFile fs lv2 filename = .returned true lv3 ∧
        lv3.layers = lv2.layers ++ newLayers ∧
        lv3.objects = lv2.objects ++ newObjects) ∧
      (∃ lv3,
        LoadFromFile fs lv1 filename = .returned true lv3 ∧
        lv3.layers = lv.layers ++ newLayers ++ newLayers ∧
        lv3.objects = lv.objects ++ newObjects ++ newObjects) := by
  obtain ⟨levelFile, map, tilesetElement, image, imagepath, img, h1, h2, h3, h4, h5, h6, hb⟩ :=
    LoadFromFile_true_chain fs lv lv1 filename h
  have hall : ∀ lv2 : Level, ∃ newLayers newObjects,
      lv1 = { loadedLevel lv map tilesetElement img with
              layers := lv.layers ++ newLayers, objects := lv.objects ++ newObjects } ∧
      LoadFromFile fs lv2 filename
        = .returned true
            { loadedLevel lv2 map tilesetElement img with
              layers := lv2.layers ++ newLayers, objects := lv2.objects ++ newObjects } := by
    intro lv2
    obtain ⟨newLayers, newObjects, hr, hb2⟩ :=
      buildLevel_frame (loadedLevel lv map tilesetElement img)
        (loadedLevel lv2 map tilesetElement img) lv1 map rfl hb
    refine ⟨newLayers, newObjects, hr, ?_⟩
    rw [LoadFromFile_of_chain fs lv2 filename levelFile map tilesetElement image imagepath img
      h1 h2 h3 h4 h5 h6]
    exact hb2
  obtain ⟨newLayers, newObjects, hr, _⟩ := hall lv
  have hlay : lv1.layers = lv.layers ++ newLayers := by rw [hr]
  have hobj : lv1.objects = lv.objects ++ newObjects := by rw [hr]
  have hsame : ∀ lv2 : Level, ∃ lv3,
      LoadFromFile fs lv2 filename = .returned true lv3 ∧
      lv3.layers = lv2.layers ++ newLayers ∧
      lv3.objects = lv2.objects ++ newObjects := by
    intro lv2
    obtain ⟨nl, no, hr2, hload⟩ := hall lv2
    have e1 : lv.layers ++ nl = lv.layers ++ newLayers := by
      rw [← hlay, hr2]
    have e2 : lv.objects ++ no = lv.objects ++ newObjects := by
      rw [← hobj, hr2]
    have e3 : nl = newLayers := List.append_cancel_left e1
    have e4 : no = newObjects := List.append_cancel_left e2
    subst e3 e4
    exact ⟨_, hload, rfl, rfl⟩
  refine ⟨newLayers, newObjects, hlay, hobj, hsame, ?_⟩
  obtain ⟨lv3, hload, hl3, ho3⟩ := hsame lv1
  exact ⟨lv3, hload, by rw [hl3, hlay], by rw [ho3, hobj]⟩

theorem load_appends_to_lists_witness :
    LoadFromFile (exampleFiles exampleMapGroups) freshLevel "level.tmx"
      = .returned true exampleLevelGroups ∧
    LoadFromFile (exampleFiles exampleMapGroups) exampleLevelGroups "level.tmx"
      = .returned true
          { exampleLevelGroups with
            layers := exampleLevelGroups.layers ++ exampleLevelGroups.layers,
            objects := exampleLevelGroups.objects ++ exampleLevelGroups.objects } ∧
    ∃ newLayers newObjects,
      exampleLevelGroups.layers = freshLevel.layers ++ newLayers ∧
      exampleLevelGroups.objects = freshLevel.objects ++ newObjects ∧
      (∀ lv2 : Level, ∃ lv3,
        LoadFromFile (exampleFiles exampleMapGroups) lv2 "level.tmx" = .returned true lv3 ∧
        lv3.layers = lv2.layers ++ newLayers ∧
        lv3.objects = lv2.objects ++ newObjects) ∧
      (∃ lv3,
        LoadFromFile (exampleFiles exampleMapGroups) exampleLevelGroups "level.tmx"
          = .returned true lv3 ∧
        lv3.layers = freshLevel.layers ++ newLayers ++ newLayers ∧
        lv3.objects = freshLevel.objects ++ newObjects ++ newObjects) :=
  ⟨by decide, by decide,
    load_appends_to_lists (exampleFiles exampleMapGroups) freshLevel exampleLevelGroups
      "level.tmx" (by decide)⟩

/-! ## The layer loop at a layer without `data` -/

theorem tileLoop_none (lv : Level) (subRects : List Rect) (opacity : Int)
    (l : List XMLElement) (st : TileLoop) (h : tileLoop lv subRects opacity st l = none) :
    ∃ t ∈ l, (subRects.length : Int) ≤ tileGID t - lv.firstTileID := by
  by_contra hc
  push_neg at hc
  obtain ⟨st1, hst1⟩ := tileLoop_defined lv subRects opacity l st
    (fun t ht => Or.inr (hc t ht))
  rw [h] at hst1
  exact Option.noConfusion hst1

/-- A layer loop that returns has met a `layer` element without `data` child; the layers of the
elements before it are appended, nothing else is changed. -/
theorem parseLayers_ret_split (subRects : List Rect) (es : List XMLElement) (lv lv1 : Level)
    (b : Bool) (h : parseLayers subRects lv es = .ret b lv1) :
    b = false ∧ ∃ pre e post newLayers,
      es = pre ++ e :: post ∧ e.FirstChildElement "data" = none ∧
      lv1 = { lv with layers := lv.layers ++ newLayers } ∧
      List.Forall₂ (fun e layer => ∃ data st, e.FirstChildElement "data" = some data ∧
        tileLoop lv subRects (layerOpacity e) {} (data.childElements "tile") = some st ∧
        layer = { opacity := layerOpacity e, tiles := st.tiles }) pre newLayers := by
  induction es generalizing lv with
  | nil => simp [parseLayers] at h
  | cons e es ih =>
    simp only [parseLayers] at h
    cases hp : parseLayer lv subRects e with
    | undefined => simp [hp] at h
    | ret b2 l2 =>
      simp only [hp] at h
      obtain ⟨hd, hb, hl⟩ := parseLayer_ret lv l2 subRects e b2 hp
      injection h with hb2 hl2
      refine ⟨by rw [← hb2, hb], [], e, es, [], rfl, hd, ?_, List.Forall₂.nil⟩
      rw [← hl2, hl]; simp
    | next l2 =>
      simp only [hp] at h
      obtain ⟨data, st, hd, ht, rfl⟩ := parseLayer_next lv l2 subRects e hp
      obtain ⟨hb, pre, e1, post, rest, hes, he1, hr, hall⟩ := ih _ h
      refine ⟨hb, e :: pre, e1, post, { opacity := layerOpacity e, tiles := st.tiles } :: rest,
        by rw [hes]; rfl, he1, by rw [hr]; simp, ?_⟩
      refine List.Forall₂.cons ⟨data, st, hd, ht, rfl⟩ ?_
      refine List.Forall₂.imp ?_ hall
      rintro e2 layer ⟨d2, s2, h1, h2, h3⟩
      exact ⟨d2, s2, h1, (tileLoop_layers lv _ subRects _ _ _).symm.trans h2, h3⟩

/-- The layer loop on a list whose first `layer` element without `data` child is `e`: it
returns `false` there, with the layers of the elements before `e` appended; or its behaviour
is undefined, because a tile of an element before `e` is read outside the table. -/
theorem parseLayers_first_without_data (subRects : List Rect) (pre post : List XMLElement)
    (e : XMLElement) (lv : Level) (he : e.FirstChildElement "data" = none)
    (hpre : ∀ p ∈ pre, (p.FirstChildElement "data").isSome = true) :
    (∃ newLayers,
      parseLayers subRects lv (pre ++ e :: post)
        = .ret false { lv with layers := lv.layers ++ newLayers } ∧
      List.Forall₂ (fun e layer => ∃ data st, e.FirstChildElement "data" = some data ∧
        tileLoop lv subRects (layerOpacity e) {} (data.childElements "tile") = some st ∧
        layer = { opacity := layerOpacity e, tiles := st.tiles }) pre newLayers) ∨
    (parseLayers subRects lv (pre ++ e :: post) = .undefined ∧
      ∃ p ∈ pre, ∃ data, p.FirstChildElement "data" = some data ∧
        ∃ t ∈ data.childElements "tile",
          (subRects.length : Int) ≤ tileGID t - lv.firstTileID) := by
  induction pre generalizing lv with
  | nil =>
    refine Or.inl ⟨[], ?_, List.Forall₂.nil⟩
    simp [parseLayers, parseLayer_no_data lv subRects e he]
  | cons p pre ih =>
    obtain ⟨data, hd⟩ := Option.isSome_iff_exists.mp (hpre p (List.mem_cons_self _ _))
    have hpre1 : ∀ q ∈ pre, (q.FirstChildElement "data").isSome = true :=
      fun q hq => hpre q (List.mem_cons_of_mem _ hq)
    cases ht : tileLoop lv subRects (layerOpacity p) {} (data.childElements "tile") with
    | none =>
      refine Or.inr ⟨?_, p, List.mem_cons_self _ _, data, hd, tileLoop_none _ _ _ _ _ ht⟩
      simp [parseLayers, parseLayer, hd, ht]
    | some st =>
      have hp := parseLayer_of_data lv subRects p data st hd ht
      rcases ih { lv with layers := lv.layers ++ [{ opacity := layerOpacity p, tiles := st.tiles }] }
        hpre1 with ⟨rest, hr, hall⟩ | ⟨hu, q, hq, d, hqd, t, htm, hout⟩
      · refine Or.inl ⟨{ opacity := layerOpacity p, tiles := st.tiles } :: rest, ?_, ?_⟩
        · rw [List.cons_append]
          simp only [parseLayers, hp]
          rw [hr]
          simp
        · refine List.Forall₂.cons ⟨data, st, hd, ht, rfl⟩ ?_
          refine List.Forall₂.imp ?_ hall
          rintro e2 layer ⟨d2, s2, h1, h2, h3⟩
          exact ⟨d2, s2, h1, (tileLoop_layers lv _ subRects _ _ _).symm.trans h2, h3⟩
      · refine Or.inr ⟨?_, q, List.mem_cons_of_mem _ hq, d, hqd, t, htm, hout⟩
        rw [List.cons_append]
        simp only [parseLayers, hp]
        rw [hu]

/-- The build of a level whose first `layer` element without `data` child is `e`: it returns
`false` with the layers of the elements before `e` appended; or its behaviour is undefined,
because a tile size is zero or a tile of an element before `e` is read outside the table. -/
theorem buildLevel_first_without_data (a : Level) (map : XMLElement)
    (pre post : List XMLElement) (e : XMLElement)
    (hes : map.childElements "layer" = pre ++ e :: post)
    (he : e.FirstChildElement "data" = none)
    (hpre : ∀ p ∈ pre, (p.FirstChildElement "data").isSome = true) :
    (∃ newLayers,
      buildLevel a map = .returned false { a with layers := a.layers ++ newLayers } ∧
      List.Forall₂ (fun e layer => ∃ data st, e.FirstChildElement "data" = some data ∧
        tileLoop a (levelSubRects a) (layerOpacity e) {} (data.childElements "tile") = some st ∧
        layer = { opacity := layerOpacity e, tiles := st.tiles }) pre newLayers) ∨
    (buildLevel a map = .undefined ∧
      (toUnsigned a.tileWidth = 0 ∨ toUnsigned a.tileHeight = 0 ∨
        ∃ p ∈ pre, ∃ data, p.FirstChildElement "data" = some data ∧
          ∃ t ∈ data.childElements "tile",
            ((levelSubRects a).length : Int) ≤ tileGID t - a.firstTileID)) := by
  by_cases hz : toUnsigned a.tileWidth = 0 ∨ toUnsigned a.tileHeight = 0
  · refine Or.inr ⟨by simp only [buildLevel, if_pos hz], ?_⟩
    rcases hz with hz | hz
    · exact Or.inl hz
    · exact Or.inr (Or.inl hz)
  · rcases parseLayers_first_without_data (levelSubRects a) pre post e a he hpre with
      ⟨newLayers, hr, hall⟩ | ⟨hu, hcause⟩
    · refine Or.inl ⟨newLayers, ?_, hall⟩
      simp only [buildLevel, if_neg hz, hes, hr]
    · refine Or.inr ⟨?_, Or.inr (Or.inr hcause)⟩
      simp only [buildLevel, if_neg hz, hes, hu]

/-! ## C13: the level after a failed load -/

theorem buildLevel_false_split (a r : Level) (map : XMLElement)
    (h : buildLevel a map = .returned false r) :
    ∃ pre e post newLayers,
      map.childElements "layer" = pre ++ e :: post ∧ e.FirstChildElement "data" = none ∧
      r = { a with layers := a.layers ++ newLayers } ∧
      List.Forall₂ (fun e layer => ∃ data st, e.FirstChildElement "data" = some data ∧
        tileLoop a (levelSubRects a) (layerOpacity e) {} (data.childElements "tile") = some st ∧
        layer = { opacity := layerOpacity e, tiles := st.tiles }) pre newLayers := by
  unfold buildLevel at h
  split_ifs at h
  simp only at h
  cases hp : parseLayers (levelSubRects a) a (map.childElements "layer") with
  | undefined => simp [hp] at h
  | ret b l1 =>
    simp only [hp] at h
    injection h with _ hl
    obtain ⟨_, pre, e, post, newLayers, hes, he, hr, hall⟩ := parseLayers_ret_split _ _ _ _ _ hp
    exact ⟨pre, e, post, newLayers, hes, he, by rw [← hl, hr], hall⟩
  | next l1 =>
    simp only [hp] at h
    cases ho : parseObjectGroups (levelSubRects a) l1 (map.childElements "objectgroup") with
    | none => simp [ho] at h
    | some l2 => simp [ho] at h

/-- A call that returns `false` either has not reached the layer loop, and then both lists are
as before, or has stored the map data and failed while building the level. -/
theorem LoadFromFile_false_cases (fs : FileSystem) (lv lv1 : Level) (filename : String)
    (h : LoadFromFile fs lv filename = .returned false lv1) :
    (lv1.layers = lv.layers ∧ lv1.objects = lv.objects) ∨
    ∃ levelFile map tilesetElement img,
      fs.LoadFile filename = some levelFile ∧
      levelFile.FirstChildElement "map" = some map ∧
      buildLevel (loadedLevel lv map tilesetElement img) map = .returned false lv1 := by
  unfold LoadFromFile at h
  cases h1 : fs.LoadFile filename with
  | none =>
    simp only [h1] at h
    injection h with _ hl
    exact Or.inl (by rw [← hl]; exact ⟨rfl, rfl⟩)
  | some levelFile =>
    simp only [h1] at h
    cases h2 : levelFile.FirstChildElement "map" with
    | none =>
      simp only [h2] at h
      injection h with _ hl
      exact Or.inl (by rw [← hl]; exact ⟨rfl, rfl⟩)
    | some map =>
      simp only [h2] at h
      cases h3 : map.FirstChildElement "tileset" with
      | none => simp [h3] at h
      | some tilesetElement =>
        simp only [h3] at h
        cases h4 : tilesetElement.FirstChildElement "image" with
        | none => simp [h4] at h
        | some image =>
          simp only [h4] at h
          cases h5 : image.Attribute "source" with
          | none => simp [h5] at h
          | some imagepath =>
            simp only [h5] at h
            cases h6 : fs.loadFromFile imagepath with
            | none =>
              simp only [h6] at h
              injection h with _ hl
              exact Or.inl (by rw [← hl]; exact ⟨rfl, rfl⟩)
            | some img =>
              simp only [h6] at h
              exact Or.inr ⟨levelFile, map, tilesetElement, img, rfl, h2, h⟩

/-- C13, the claim fails: on a map whose first layer is well formed and whose second layer has
no `data` child, the load returns `false` and leaves the first layer in the layer list of a
level that held no layer before. -/
theorem failed_load_leaves_partial_model :
    LoadFromFile (exampleFiles exampleMapSecondLayerBroken) freshLevel "level.tmx"
      = .returned false { exampleLevel with layers := [exampleLayer] } ∧
    freshLevel.layers = [] ∧
    ({ exampleLevel with layers := [exampleLayer] } : Level).layers ≠ freshLevel.layers := by
  decide

/-- The causes for which a call returns `false`, each with what it leaves behind: the
document is not loaded or has no `map` element (the level is untouched), the atlas is not
loaded (both lists are untouched), or the level is built and the build returns `false`. -/
theorem LoadFromFile_false_causes (fs : FileSystem) (lv lv1 : Level) (filename : String)
    (h : LoadFromFile fs lv filename = .returned false lv1) :
    (fs.LoadFile filename = none ∧ lv1 = lv) ∨
    (∃ levelFile, fs.LoadFile filename = some levelFile ∧
      levelFile.FirstChildElement "map" = none ∧ lv1 = lv) ∨
    (∃ levelFile map tilesetElement image imagepath,
      fs.LoadFile filename = some levelFile ∧
      levelFile.FirstChildElement "map" = some map ∧
      map.FirstChildElement "tileset" = some tilesetElement ∧
      tilesetElement.FirstChildElement "image" = some image ∧
      image.Attribute "source" = some imagepath ∧
      fs.loadFromFile imagepath = none ∧
      lv1.layers = lv.layers ∧ lv1.objects = lv.objects) ∨
    (∃ levelFile map tilesetElement image imagepath img,
      fs.LoadFile filename = some levelFile ∧
      levelFile.FirstChildElement "map" = some map ∧
      map.FirstChildElement "tileset" = some tilesetElement ∧
      tilesetElement.FirstChildElement "image" = some image ∧
      image.Attribute "source" = some imagepath ∧
      fs.loadFromFile imagepath = some img ∧
      buildLevel (loadedLevel lv map tilesetElement img) map = .returned false lv1) := by
  unfold LoadFromFile at h
  cases h1 : fs.LoadFile filename with
  | none =>
    simp only [h1] at h
    injection h with _ hl
    exact Or.inl ⟨rfl, hl.symm⟩
  | some levelFile =>
    simp only [h1] at h
    cases h2 : levelFile.FirstChildElement "map" with
    | none =>
      simp only [h2] at h
      injection h with _ hl
      exact Or.inr (Or.inl ⟨levelFile, rfl, h2, hl.symm⟩)
    | some map =>
      simp only [h2] at h
      cases h3 : map.FirstChildElement "tileset" with
      | none => simp [h3] at h
      | some tilesetElement =>
        simp only [h3] at h
        cases h4 : tilesetElement.FirstChildElement "image" with
        | none => simp [h4] at h
        | some image =>
          simp only [h4] at h
          cases h5 : image.Attribute "source" with
          | none => simp [h5] at h
          | some imagepath =>
            simp only [h5] at h
            cases h6 : fs.loadFromFile imagepath with
            | none =>
              simp only [h6] at h
              injection h with _ hl
              refine Or.inr (Or.inr (Or.inl ⟨levelFile, map, tilesetElement, image, imagepath,
                rfl, h2, h3, h4, h5, h6, ?_⟩))
              rw [← hl]
              exact ⟨rfl, rfl⟩
            | some img =>
              simp only [h6] at h
              exact Or.inr (Or.inr (Or.inr ⟨levelFile, map, tilesetElement, image, imagepath,
                img, rfl, h2, h3, h4, h5, h6, h⟩))

/-- C13, amended: a load that returns `false` leaves the object list as it was, and its layer
list is fixed by the cause of the failure.  The cause is one of four: the document is not
loaded, it has no `map` element, the atlas is not loaded, or (with the atlas loaded) a `layer`
element has no `data` child.  In the first three cases the layer list is as it was, whatever
layers the map holds; in the fourth it is the old list followed by the layers of the `layer`
elements that precede the first one without `data` child, one layer for each. -/
theorem failed_load_keeps_earlier_layers (fs : FileSystem) (lv lv1 : Level) (filename : String)
    (h : LoadFromFile fs lv filename = .returned false lv1) :
    lv1.objects = lv.objects ∧
    ((fs.LoadFile filename = none ∧ lv1.layers = lv.layers) ∨
     (∃ levelFile, fs.LoadFile filename = some levelFile ∧
        levelFile.FirstChildElement "map" = none ∧ lv1.layers = lv.layers) ∨
     (∃ levelFile map tilesetElement image imagepath,
        fs.LoadFile filename = some levelFile ∧
        levelFile.FirstChildElement "map" = some map ∧
        map.FirstChildElement "tileset" = some tilesetElement ∧
        tilesetElement.FirstChildElement "image" = some image ∧
        image.Attribute "source" = some imagepath ∧
        fs.loadFromFile imagepath = none ∧ lv1.layers = lv.layers) ∨
     (∃ levelFile map tilesetElement image imagepath img pre e post newLayers,
        fs.LoadFile filename = some levelFile ∧
        levelFile.FirstChildElement "map" = some map ∧
        map.FirstChildElement "tileset" = some tilesetElement ∧
        tilesetElement.FirstChildElement "image" = some image ∧
        image.Attribute "source" = some imagepath ∧
        fs.loadFromFile imagepath = some img ∧
        map.childElements "layer" = pre ++ e :: post ∧
        e.FirstChildElement "data" = none ∧
        lv1.layers = lv.layers ++ newLayers ∧
        List.Forall₂ (fun e layer => ∃ data st, e.FirstChildElement "data" = some data ∧
          tileLoop lv1 (levelSubRects lv1) (layerOpacity e) {} (data.childElements "tile")
            = some st ∧
          layer = { opacity := layerOpacity e, tiles := st.tiles }) pre newLayers)) ∧
    (fs.LoadFile filename = none → lv1.layers = lv.layers) ∧
    (∀ levelFile, fs.LoadFile filename = some levelFile →
      levelFile.FirstChildElement "map" = none → lv1.layers = lv.layers) ∧
    (∀ levelFile map tilesetElement image imagepath,
      fs.LoadFile filename = some levelFile →
      levelFile.FirstChildElement "map" = some map →
      map.FirstChildElement "tileset" = some tilesetElement →
      tilesetElement.FirstChildElement "image" = some image →
      image.Attribute "source" = some imagepath →
      fs.loadFromFile imagepath = none → lv1.layers = lv.layers) ∧
    (∀ levelFile map tilesetElement image imagepath img pre e post,
      fs.LoadFile filename = some levelFile →
      levelFile.FirstChildElement "map" = some map →
      map.FirstChildElement "tileset" = some tilesetElement →
      tilesetElement.FirstChildElement "image" = some image →
      image.Attribute "source" = some imagepath →
      fs.loadFromFile imagepath = some img →
      map.childElements "layer" = pre ++ e :: post →
      e.FirstChildElement "data" = none →
      (∀ p ∈ pre, (p.FirstChildElement "data").isSome = true) →
      ∃ newLayers, lv1.layers = lv.layers ++ newLayers ∧
        List.Forall₂ (fun e layer => ∃ data st, e.FirstChildElement "data" = some data ∧
          tileLoop lv1 (levelSubRects lv1) (layerOpacity e) {} (data.childElements "tile")
            = some st ∧
          layer = { opacity := layerOpacity e, tiles := st.tiles }) pre newLayers) := by
  refine ⟨?_, ?_, ?_, ?_, ?_, ?_⟩
  · rcases LoadFromFile_false_causes fs lv lv1 filename h with
      ⟨_, hl⟩ | ⟨_, _, _, hl⟩ | ⟨_, _, _, _, _, _, _, _, _, _, _, _, ho⟩ |
      ⟨_, map, tilesetElement, _, _, img, _, _, _, _, _, _, hb⟩
    · rw [hl]
    · rw [hl]
    · exact ho
    · obtain ⟨pre, e, post, newLayers, _, _, rfl, _⟩ := buildLevel_false_split _ _ _ hb
      rfl
  · rcases LoadFromFile_false_causes fs lv lv1 filename h with
      ⟨h1, hl⟩ | ⟨levelFile, h1, h2, hl⟩ |
      ⟨levelFile, map, tilesetElement, image, imagepath, h1, h2, h3, h4, h5, h6, hlay, _⟩ |
      ⟨levelFile, map, tilesetElement, image, imagepath, img, h1, h2, h3, h4, h5, h6, hb⟩
    · exact Or.inl ⟨h1, by rw [hl]⟩
    · exact Or.inr (Or.inl ⟨levelFile, h1, h2, by rw [hl]⟩)
    · exact Or.inr (Or.inr (Or.inl ⟨levelFile, map, tilesetElement, image, imagepath,
        h1, h2, h3, h4, h5, h6, hlay⟩))
    · obtain ⟨pre, e, post, newLayers, hes, he, rfl, hall⟩ := buildLevel_false_split _ _ _ hb
      refine Or.inr (Or.inr (Or.inr ⟨levelFile, map, tilesetElement, image, imagepath, img,
        pre, e, post, newLayers, h1, h2, h3, h4, h5, h6, hes, he, rfl, ?_⟩))
      refine List.Forall₂.imp ?_ hall
      rintro e2 layer ⟨d2, s2, hd, ht, hlayer⟩
      refine ⟨d2, s2, hd, ?_, hlayer⟩
      rw [← ht]
      refine tileLoop_congr (loadedLevel lv map tilesetElement img) _ _ _ ?_ ?_ ?_ ?_ ?_ ?_ _ _
        <;> rfl
  · intro h1
    simp only [LoadFromFile, h1] at h
    injection h with _ hl
    rw [← hl]
  · intro levelFile h1 h2
    simp only [LoadFromFile, h1, h2] at h
    injection h with _ hl
    rw [← hl]
  · intro levelFile map tilesetElement image imagepath h1 h2 h3 h4 h5 h6
    simp only [LoadFromFile, h1, h2, h3, h4, h5, h6] at h
    injection h with _ hl
    rw [← hl]
  · intro levelFile map tilesetElement image imagepath img pre e post h1 h2 h3 h4 h5 h6
      hes he hpre
    rw [LoadFromFile_of_chain fs lv filename levelFile map tilesetElement image imagepath img
      h1 h2 h3 h4 h5 h6] at h
    rcases buildLevel_first_without_data (loadedLevel lv map tilesetElement img) map
      pre post e hes he hpre with ⟨newLayers, hr, hall⟩ | ⟨hu, _⟩
    · rw [hr] at h
      injection h with _ hl
      subst hl
      refine ⟨newLayers, rfl, ?_⟩
      refine List.Forall₂.imp ?_ hall
      rintro e2 layer ⟨d2, s2, hd, ht, hlayer⟩
      refine ⟨d2, s2, hd, ?_, hlayer⟩
      rw [← ht]
      refine tileLoop_congr (loadedLevel lv map tilesetElement img) _ _ _ ?_ ?_ ?_ ?_ ?_ ?_ _ _
        <;> rfl
    · rw [hu] at h
      exact Outcome.noConfusion h

theorem failed_load_keeps_earlier_layers_witness :
    LoadFromFile (exampleFiles exampleMapSecondLayerBroken) freshLevel "level.tmx"
      = .returned false { exampleLevel with layers := [exampleLayer] } ∧
    (∃ newLayers,
      ({ exampleLevel with layers := [exampleLayer] } : Level).layers
        = freshLevel.layers ++ newLayers ∧
      List.Forall₂ (fun e layer => ∃ data st, e.FirstChildElement "data" = some data ∧
        tileLoop { exampleLevel with layers := [exampleLayer] }
            (levelSubRects { exampleLevel with layers := [exampleLayer] }) (layerOpacity e) {}
            (data.childElements "tile") = some st ∧
        layer = { opacity := layerOpacity e, tiles := st.tiles })
        [.mk "layer" [] [.mk "data" [] [tileWithGid "1" 1, tileWithGid "2" 2]]] newLayers) ∧
    LoadFromFile (exampleFilesNoAtlas exampleMapSecondLayerBroken) freshLevel "level.tmx"
      = .returned false { exampleLevel with tilesetImage := {} } ∧
    ({ exampleLevel with tilesetImage := {} } : Level).layers = freshLevel.layers :=
  ⟨by decide,
    (failed_load_keeps_earlier_layers (exampleFiles exampleMapSecondLayerBroken) freshLevel
      { exampleLevel with layers := [exampleLayer] } "level.tmx" (by decide)).2.2.2.2.2
      { children := [exampleMapSecondLayerBroken] } exampleMapSecondLayerBroken exampleTileset
      (.mk "image" [textAttr "source" "tiles.png"] []) "tiles.png" { x := 32, y := 16 }
      [.mk "layer" [] [.mk "data" [] [tileWithGid "1" 1, tileWithGid "2" 2]]]
      (.mk "layer" [] [])
      [.mk "layer" [] [.mk "data" [] [tileWithGid "1" 1]]]
      rfl rfl rfl rfl rfl rfl rfl rfl (by decide),
    by decide,
    (failed_load_keeps_earlier_layers (exampleFilesNoAtlas exampleMapSecondLayerBroken)
      freshLevel { exampleLevel with tilesetImage := {} } "level.tmx" (by decide)).2.2.2.2.1
      { children := [exampleMapSecondLayerBroken] } exampleMapSecondLayerBroken exampleTileset
      (.mk "image" [textAttr "source" "tiles.png"] []) "tiles.png"
      rfl rfl rfl rfl rfl rfl⟩

/-! ## C15: failure at the first layer without `data` -/

/-- C15: for a readable map with a `map` element, a tileset with an image and a loadable atlas,
in which `e` is the first `layer` element without `data` child: the load never returns `true`;
when it returns, it returns `false` with exactly the layers of the `layer` elements before `e`
appended and the object list untouched (the later layers and the object groups are not
processed); and it does return when the tile sizes are not zero and no tile of a layer before
`e` is read outside the table. -/
theorem load_fails_at_first_layer_without_data (fs : FileSystem) (lv : Level)
    (filename : String) (levelFile : XMLDocument) (map tilesetElement image : XMLElement)
    (imagepath : String) (img : Image) (pre post : List XMLElement) (e : XMLElement)
    (h1 : fs.LoadFile filename = some levelFile)
    (h2 : levelFile.FirstChildElement "map" = some map)
    (h3 : map.FirstChildElement "tileset" = some tilesetElement)
    (h4 : tilesetElement.FirstChildElement "image" = some image)
    (h5 : image.Attribute "source" = some imagepath)
    (h6 : fs.loadFromFile imagepath = some img)
    (hes : map.childElements "layer" = pre ++ e :: post)
    (he : e.FirstChildElement "data" = none)
    (hpre : ∀ p ∈ pre, (p.FirstChildElement "data").isSome = true) :
    (∀ (b : Bool) (lv1 : Level), LoadFromFile fs lv filename = .returned b lv1 →
      b = false ∧ lv1.objects = lv.objects ∧
      ∃ newLayers, lv1.layers = lv.layers ++ newLayers ∧
        List.Forall₂ (fun e layer => ∃ data st, e.FirstChildElement "data" = some data ∧
          tileLoop lv1 (levelSubRects lv1) (layerOpacity e) {} (data.childElements "tile")
            = some st ∧
          layer = { opacity := layerOpacity e, tiles := st.tiles }) pre newLayers) ∧
    (toUnsigned (map.IntAttribute "tilewidth") ≠ 0 →
      toUnsigned (map.IntAttribute "tileheight") ≠ 0 →
      (∀ p ∈ pre, ∀ data, p.FirstChildElement "data" = some data →
        ∀ t ∈ data.childElements "tile",
          tileGID t - tilesetElement.IntAttribute "firstgid"
            < ((levelSubRects (loadedLevel lv map tilesetElement img)).length : Int)) →
      ∃ lv1, LoadFromFile fs lv filename = .returned false lv1) := by
  have hload := LoadFromFile_of_chain fs lv filename levelFile map tilesetElement image
    imagepath img h1 h2 h3 h4 h5 h6
  have hcases := buildLevel_first_without_data (loadedLevel lv map tilesetElement img) map
    pre post e hes he hpre
  constructor
  · intro b lv1 h
    rw [hload] at h
    rcases hcases with ⟨newLayers, hr, hall⟩ | ⟨hu, _⟩
    · rw [hr] at h
      injection h with hb hl
      subst hl
      refine ⟨hb.symm, rfl, newLayers, rfl, ?_⟩
      refine List.Forall₂.imp ?_ hall
      rintro e2 layer ⟨d2, s2, hd, ht, hlayer⟩
      refine ⟨d2, s2, hd, ?_, hlayer⟩
      rw [← ht]
      refine tileLoop_congr (loadedLevel lv map tilesetElement img) _ _ _ ?_ ?_ ?_ ?_ ?_ ?_ _ _
        <;> rfl
    · rw [hu] at h
      exact Outcome.noConfusion h
  · intro hw hh hin
    rw [hload]
    rcases hcases with ⟨newLayers, hr, _⟩ | ⟨_, hz | hz | ⟨p, hp, data, hd, t, ht, hout⟩⟩
    · exact ⟨_, hr⟩
    · exact absurd hz hw
    · exact absurd hz hh
    · have hlt := hin p hp data hd t ht
      have hout1 : ((levelSubRects (loadedLevel lv map tilesetElement img)).length : Int)
          ≤ tileGID t - tilesetElement.IntAttribute "firstgid" := hout
      omega

theorem load_fails_at_first_layer_without_data_witness :
    LoadFromFile (exampleFiles exampleMapSecondLayerBroken) freshLevel "level.tmx"
      = .returned false { exampleLevel with layers := [exampleLayer] } ∧
    (false = false ∧
      ({ exampleLevel with layers := [exampleLayer] } : Level).objects = freshLevel.objects ∧
      ∃ newLayers,
        ({ exampleLevel with layers := [exampleLayer] } : Level).layers
          = freshLevel.layers ++ newLayers ∧
        List.Forall₂ (fun e layer => ∃ data st, e.FirstChildElement "data" = some data ∧
          tileLoop { exampleLevel with layers := [exampleLayer] }
              (levelSubRects { exampleLevel with layers := [exampleLayer] }) (layerOpacity e) {}
              (data.childElements "tile") = some st ∧
          layer = { opacity := layerOpacity e, tiles := st.tiles })
          [.mk "layer" [] [.mk "data" [] [tileWithGid "1" 1, tileWithGid "2" 2]]] newLayers) :=
  ⟨by decide,
    (load_fails_at_first_layer_without_data (exampleFiles exampleMapSecondLayerBroken)
      freshLevel "level.tmx" { children := [exampleMapSecondLayerBroken] }
      exampleMapSecondLayerBroken exampleTileset
      (.mk "image" [textAttr "source" "tiles.png"] []) "tiles.png" { x := 32, y := 16 }
      [.mk "layer" [] [.mk "data" [] [tileWithGid "1" 1, tileWithGid "2" 2]]]
      [.mk "layer" [] [.mk "data" [] [tileWithGid "1" 1]]]
      (.mk "layer" [] [])
      rfl rfl rfl rfl rfl rfl rfl rfl (by decide)).1 false
      { exampleLevel with layers := [exampleLayer] } (by decide)⟩

/-! ## C14: the opacity of a layer -/

/-- C14: without `opacity` attribute the stored opacity is 255; with an attribute that reads
`q` in `[0, 1]` it is the truncation `floor (255 * q)`, which lies in 0 .. 255. -/
theorem layer_opacity_truncates (layerElement : XMLElement) :
    ((layerElement.FindAttribute "opacity").isSome = false →
      layerOpacity layerElement = 255) ∧
    (∀ q : ℚ, (layerElement.FindAttribute "opacity").isSome = true →
      layerElement.FloatAttribute "opacity" = q → 0 ≤ q → q ≤ 1 →
      layerOpacity layerElement = ⌊255 * q⌋ ∧
      0 ≤ layerOpacity layerElement ∧ layerOpacity layerElement ≤ 255) := by
  constructor
  · intro h
    simp only [layerOpacity, h, Bool.false_eq_true, if_false]
  · intro q hpresent hq h0 h1
    have hnn : (0 : ℚ) ≤ 255 * q := by positivity
    have hval : layerOpacity layerElement = ⌊255 * q⌋ := by
      simp only [layerOpacity, hpresent, if_true, hq, truncToInt, if_pos hnn]
    rw [hval]
    refine ⟨rfl, Int.floor_nonneg.mpr hnn, ?_⟩
    have hle : (255 : ℚ) * q ≤ ((255 : Int) : ℚ) := by
      push_cast
      nlinarith
    have hfl : ⌊255 * q⌋ ≤ ⌊((255 : Int) : ℚ)⌋ := Int.floor_mono hle
    rwa [Int.floor_intCast] at hfl

theorem layer_opacity_truncates_witness :
    (exampleLayerHalfOpacity.FindAttribute "opacity").isSome = true ∧
    exampleLayerHalfOpacity.FloatAttribute "opacity" = 1 / 2 ∧
    layerOpacity exampleLayerHalfOpacity = 127 ∧
    layerOpacity (.mk "layer" [] []) = 255 := by
  have hpresent : (exampleLayerHalfOpacity.FindAttribute "opacity").isSome = true := by decide
  have hq : exampleLayerHalfOpacity.FloatAttribute "opacity" = 1 / 2 := by
    simp [exampleLayerHalfOpacity, XMLElement.FloatAttribute, XMLElement.FindAttribute,
      XMLElement.attributes]
  have h := ((layer_opacity_truncates exampleLayerHalfOpacity).2 (1 / 2) hpresent hq
    (by norm_num) (by norm_num)).1
  have hfloor : ⌊(255 : ℚ) * (1 / 2)⌋ = 127 := by
    rw [Int.floor_eq_iff]
    norm_num
  exact ⟨hpresent, hq, h.trans hfloor,
    (layer_opacity_truncates (.mk "layer" [] [])).1 (by decide)⟩

/-! ## C16: a map without tileset, image or source -/

/-- The call dereferences the null pointer of a missing `tileset` element, of a missing `image`
element, or of a missing `source` attribute. -/
theorem LoadFromFile_null_tileset (fs : FileSystem) (lv : Level) (filename : String)
    (levelFile : XMLDocument) (map : XMLElement)
    (h1 : fs.LoadFile filename = some levelFile)
    (h2 : levelFile.FirstChildElement "map" = some map)
    (h3 : map.FirstChildElement "tileset" = none ∨
      ∃ tilesetElement, map.FirstChildElement "tileset" = some tilesetElement ∧
        (tilesetElement.FirstChildElement "image" = none ∨
          ∃ image, tilesetElement.FirstChildElement "image" = some image ∧
            image.Attribute "source" = none)) :
    LoadFromFile fs lv filename = .undefined := by
  rcases h3 with h3 | ⟨t, h3, h4 | ⟨i, h4, h5⟩⟩
  · simp only [LoadFromFile, h1, h2, h3]
  · simp only [LoadFromFile, h1, h2, h3, h4]
  · simp only [LoadFromFile, h1, h2, h3, h4, h5]

/-- C16, the code at the failing inputs: for a map without `tileset` child, for a tileset
without `image` child and for an image without `source` attribute, the call does not return
`false`; it dereferences the null pointer. -/
theorem missing_tileset_is_dereferenced :
    LoadFromFile (exampleFiles exampleMapNoTileset) freshLevel "level.tmx" = .undefined ∧
    LoadFromFile (exampleFiles exampleMapNoImage) freshLevel "level.tmx" = .undefined ∧
    LoadFromFile (exampleFiles exampleMapNoSource) freshLevel "level.tmx" = .undefined ∧
    (exampleMapNoTileset.FirstChildElement "tileset").isSome = false := by
  refine ⟨?_, ?_, ?_, by decide⟩
  · exact LoadFromFile_null_tileset _ _ _ { children := [exampleMapNoTileset] }
      exampleMapNoTileset rfl rfl (Or.inl rfl)
  · exact LoadFromFile_null_tileset _ _ _ { children := [exampleMapNoImage] }
      exampleMapNoImage rfl rfl
      (Or.inr ⟨.mk "tileset" [intAttr "firstgid" "1" 1] [], rfl, Or.inl rfl⟩)
  · exact LoadFromFile_null_tileset _ _ _ { children := [exampleMapNoSource] }
      exampleMapNoSource rfl rfl
      (Or.inr ⟨.mk "tileset" [intAttr "firstgid" "1" 1] [.mk "image" [] []], rfl,
        Or.inr ⟨.mk "image" [] [], rfl, rfl⟩⟩)

/-! ## C17: a tile size of zero -/

/-- C17, the claim fails: with `tilewidth="0"`, and with the `tileheight` attribute missing, the
load does not return `false`; it divides by zero. -/
theorem zero_tile_size_not_rejected :
    LoadFromFile (exampleFiles exampleMapZeroTileWidth) freshLevel "level.tmx" = .undefined ∧
    (∀ lv1, LoadFromFile (exampleFiles exampleMapZeroTileWidth) freshLevel "level.tmx"
      ≠ .returned false lv1) ∧
    LoadFromFile (exampleFiles exampleMapNoTileHeight) freshLevel "level.tmx" = .undefined ∧
    (∀ lv1, LoadFromFile (exampleFiles exampleMapNoTileHeight) freshLevel "level.tmx"
      ≠ .returned false lv1) := by
  have h1 : LoadFromFile (exampleFiles exampleMapZeroTileWidth) freshLevel "level.tmx"
      = .undefined := by decide
  have h2 : LoadFromFile (exampleFiles exampleMapNoTileHeight) freshLevel "level.tmx"
      = .undefined := by decide
  refine ⟨h1, ?_, h2, ?_⟩
  · intro lv1 h
    rw [h1] at h
    exact Outcome.noConfusion h
  · intro lv1 h
    rw [h2] at h
    exact Outcome.noConfusion h

/-- C17, amended: the divisions are not guarded.  When `tilewidth` or `tileheight` reads 0 (an
attribute that is missing reads 0) the load never returns `true`, and once the tileset, its
image and the atlas are loaded it evaluates `atlasWidth / tileWidth` or
`atlasHeight / tileHeight` with a zero divisor, which is undefined behaviour and not a
returned `false`. -/
theorem zero_tile_size_divides (fs : FileSystem) (lv : Level) (filename : String)
    (levelFile : XMLDocument) (map : XMLElement)
    (h1 : fs.LoadFile filename = some levelFile)
    (h2 : levelFile.FirstChildElement "map" = some map)
    (hzero : map.IntAttribute "tilewidth" = 0 ∨ map.IntAttribute "tileheight" = 0) :
    (∀ lv1, LoadFromFile fs lv filename ≠ .returned true lv1) ∧
    (∀ (tilesetElement image : XMLElement) (imagepath : String) (img : Image),
      map.FirstChildElement "tileset" = some tilesetElement →
      tilesetElement.FirstChildElement "image" = some image →
      image.Attribute "source" = some imagepath →
      fs.loadFromFile imagepath = some img →
      LoadFromFile fs lv filename = .undefined) := by
  have hbuild : ∀ (tilesetElement : XMLElement) (img : Image),
      buildLevel (loadedLevel lv map tilesetElement img) map = .undefined := by
    intro tilesetElement img
    have hz : toUnsigned (loadedLevel lv map tilesetElement img).tileWidth = 0 ∨
        toUnsigned (loadedLevel lv map tilesetElement img).tileHeight = 0 := by
      rcases hzero with hz | hz
      · left
        show toUnsigned (map.IntAttribute "tilewidth") = 0
        rw [hz]; rfl
      · right
        show toUnsigned (map.IntAttribute "tileheight") = 0
        rw [hz]; rfl
    simp only [buildLevel, if_pos hz]
  constructor
  · intro lv1 h
    obtain ⟨levelFile1, map1, tilesetElement, image, imagepath, img, g1, g2, _, _, _, _, hb⟩ :=
      LoadFromFile_true_chain fs lv lv1 filename h
    rw [h1] at g1
    have e1 : levelFile = levelFile1 := Option.some.inj g1
    subst e1
    rw [h2] at g2
    have e2 : map = map1 := Option.some.inj g2
    subst e2
    rw [hbuild tilesetElement img] at hb
    exact Outcome.noConfusion hb
  · intro tilesetElement image imagepath img h3 h4 h5 h6
    rw [LoadFromFile_of_chain fs lv filename levelFile map tilesetElement image imagepath img
      h1 h2 h3 h4 h5 h6]
    exact hbuild tilesetElement img

theorem zero_tile_size_divides_witness :
    (exampleMapZeroTileWidth.IntAttribute "tilewidth" = 0 ∨
      exampleMapZeroTileWidth.IntAttribute "tileheight" = 0) ∧
    LoadFromFile (exampleFiles exampleMapZeroTileWidth) freshLevel "level.tmx" = .undefined :=
  ⟨by decide,
    (zero_tile_size_divides (exampleFiles exampleMapZeroTileWidth) freshLevel "level.tmx"
      { children := [exampleMapZeroTileWidth] } exampleMapZeroTileWidth rfl rfl
      (by decide)).2 exampleTileset (.mk "image" [textAttr "source" "tiles.png"] [])
      "tiles.png" { x := 32, y := 16 } rfl rfl rfl rfl⟩

/-! ## C18: the cursor at every element -/

/-- C18: for `width >= 1` and `height >= 1` the cursor after `n` tile elements of a layer, which
is the cursor seen by element `n`, is `(n mod width, (n div width) mod height)` whatever the
elements place, so `0 <= x < width` and `0 <= y < height`, for layers of any length; and the
loop reaches every element when no index leaves the table. -/
theorem cursor_at_every_element (lv : Level) (subRects : List Rect) (opacity : Int)
    (tiles : List XMLElement) (hw : 1 ≤ lv.width) (hh : 1 ≤ lv.height) :
    (∀ (n : Nat) (st : TileLoop), n ≤ tiles.length →
      tileLoop lv subRects opacity {} (tiles.take n) = some st →
      st.x = (n : Int) % lv.width ∧ st.y = ((n : Int) / lv.width) % lv.height ∧
      0 ≤ st.x ∧ st.x < lv.width ∧ 0 ≤ st.y ∧ st.y < lv.height) ∧
    ((∀ t ∈ tiles, tileGID t - lv.firstTileID < 0 ∨
        tileGID t - lv.firstTileID < (subRects.length : Int)) →
      ∀ n : Nat, n ≤ tiles.length →
        ∃ st, tileLoop lv subRects opacity {} (tiles.take n) = some st) := by
  obtain ⟨W, hWeq⟩ : ∃ W : Nat, lv.width = (W : Int) := ⟨lv.width.toNat, by omega⟩
  obtain ⟨H, hHeq⟩ : ∃ H : Nat, lv.height = (H : Int) := ⟨lv.height.toNat, by omega⟩
  have hW : 0 < W := by omega
  have hH : 0 < H := by omega
  constructor
  · intro n st hn hst
    obtain ⟨hx, hy⟩ :=
      tileLoop_cursor lv subRects opacity W H hW hH hWeq hHeq (tiles.take n) st hst
    have hlt : (tiles.take n).length = n := by
      rw [List.length_take]; omega
    rw [hlt] at hx hy
    have hxlt : n % W < W := Nat.mod_lt _ hW
    have hylt : (n / W) % H < H := Nat.mod_lt _ hH
    rw [hx, hy, hWeq, hHeq]
    refine ⟨by push_cast; rfl, by push_cast; rfl, by positivity, by exact_mod_cast hxlt,
      by positivity, by exact_mod_cast hylt⟩
  · intro hall n _
    exact tileLoop_defined lv subRects opacity (tiles.take n) {}
      (fun t ht => hall t (List.mem_of_mem_take ht))

theorem cursor_at_every_element_witness :
    (1 ≤ exampleLevel.width ∧ 1 ≤ exampleLevel.height) ∧
    tileLoop exampleLevel (levelSubRects exampleLevel) 255 {}
        ([tileWithGid "1" 1, tileWithoutGid, tileWithGid "2" 2, tileWithoutGid].take 3)
      = some { x := 1, y := 0,
               tiles := [{ hasTexture := true,
                           textureRect := { left := 0, top := 0, width := 16, height := 16 },
                           position := (0, 0) },
                         { hasTexture := true,
                           textureRect := { left := 16, top := 0, width := 16, height := 16 },
                           position := (0, 0) }] } ∧
    ((1 : Int) = ((3 : Nat) : Int) % exampleLevel.width ∧
      (0 : Int) = (((3 : Nat) : Int) / exampleLevel.width) % exampleLevel.height ∧
      (0 : Int) ≤ 1 ∧ (1 : Int) < exampleLevel.width ∧
      (0 : Int) ≤ 0 ∧ (0 : Int) < exampleLevel.height) :=
  ⟨by decide, by decide,
    (cursor_at_every_element exampleLevel (levelSubRects exampleLevel) 255
      [tileWithGid "1" 1, tileWithoutGid, tileWithGid "2" 2, tileWithoutGid]
      (by decide) (by decide)).1 3
      { x := 1, y := 0,
        tiles := [{ hasTexture := true,
                    textureRect := { left := 0, top := 0, width := 16, height := 16 },
                    position := (0, 0) },
                  { hasTexture := true,
                    textureRect := { left := 16, top := 0, width := 16, height := 16 },
                    position := (0, 0) }] }
      (by decide) (by decide)⟩

end SFMLTeach
